import Mathlib

/-!
Verification development for the Harbor ansible collection
(plugins/modules/harbor_retention.py, harbor_scan_all_schedule.py,
harbor_tag_immutability.py).

Each module reconciles a desired Harbor policy resource against the live
registry.  The decision logic of every module lives in its class
initializer; we embed that logic as pure Lean functions over a JSON value
type, with the registry abstracted as a record of request functions over an
arbitrary state type.  `Outcome` records the reported result, the list of
mutating HTTP calls issued, and the final registry state; Python exceptions
that escape the module (as opposed to controlled `fail_json` exits) are
modelled by the `crashed` constructor.
-/

/-- JSON values as decoded by `request.json()`.  Objects are association
lists; all objects manipulated by the modules have pairwise-distinct keys,
so structural equality of the lists coincides with Python dict equality. -/
inductive Json where
  | null : Json
  | jbool (b : Bool) : Json
  | num (n : Int) : Json
  | str (s : String) : Json
  | arr (elems : List Json) : Json
  | obj (fields : List (String × Json)) : Json

mutual

def Json.beq : Json → Json → Bool
  | .null, .null => true
  | .jbool a, .jbool b => a == b
  | .num a, .num b => a == b
  | .str a, .str b => a == b
  | .arr xs, .arr ys => Json.beqList xs ys
  | .obj xs, .obj ys => Json.beqFields xs ys
  | _, _ => false

def Json.beqList : List Json → List Json → Bool
  | [], [] => true
  | x :: xs, y :: ys => Json.beq x y && Json.beqList xs ys
  | _, _ => false

def Json.beqFields : List (String × Json) → List (String × Json) → Bool
  | [], [] => true
  | (k1, v1) :: xs, (k2, v2) :: ys => k1 == k2 && Json.beq v1 v2 && Json.beqFields xs ys
  | _, _ => false

end

mutual

def Json.beq_iff : ∀ a b : Json, Json.beq a b = true ↔ a = b
  | .null, .null => by simp [Json.beq]
  | .jbool a, .jbool b => by simp [Json.beq]
  | .num a, .num b => by simp [Json.beq]
  | .str a, .str b => by simp [Json.beq]
  | .arr xs, .arr ys => by
      simp only [Json.beq, Json.beqList_iff xs ys, Json.arr.injEq]
  | .obj xs, .obj ys => by
      simp only [Json.beq, Json.beqFields_iff xs ys, Json.obj.injEq]
  | .null, .jbool _ => by simp [Json.beq]
  | .null, .num _ => by simp [Json.beq]
  | .null, .str _ => by simp [Json.beq]
  | .null, .arr _ => by simp [Json.beq]
  | .null, .obj _ => by simp [Json.beq]
  | .jbool _, .null => by simp [Json.beq]
  | .jbool _, .num _ => by simp [Json.beq]
  | .jbool _, .str _ => by simp [Json.beq]
  | .jbool _, .arr _ => by simp [Json.beq]
  | .jbool _, .obj _ => by simp [Json.beq]
  | .num _, .null => by simp [Json.beq]
  | .num _, .jbool _ => by simp [Json.beq]
  | .num _, .str _ => by simp [Json.beq]
  | .num _, .arr _ => by simp [Json.beq]
  | .num _, .obj _ => by simp [Json.beq]
  | .str _, .null => by simp [Json.beq]
  | .str _, .jbool _ => by simp [Json.beq]
  | .str _, .num _ => by simp [Json.beq]
  | .str _, .arr _ => by simp [Json.beq]
  | .str _, .obj _ => by simp [Json.beq]
  | .arr _, .null => by simp [Json.beq]
  | .arr _, .jbool _ => by simp [Json.beq]
  | .arr _, .num _ => by simp [Json.beq]
  | .arr _, .str _ => by simp [Json.beq]
  | .arr _, .obj _ => by simp [Json.beq]
  | .obj _, .null => by simp [Json.beq]
  | .obj _, .jbool _ => by simp [Json.beq]
  | .obj _, .num _ => by simp [Json.beq]
  | .obj _, .str _ => by simp [Json.beq]
  | .obj _, .arr _ => by simp [Json.beq]

def Json.beqList_iff : ∀ xs ys : List Json, Json.beqList xs ys = true ↔ xs = ys
  | [], [] => by simp [Json.beqList]
  | x :: xs, y :: ys => by
      simp [Json.beqList, Json.beq_iff x y, Json.beqList_iff xs ys]
  | [], _ :: _ => by simp [Json.beqList]
  | _ :: _, [] => by simp [Json.beqList]

def Json.beqFields_iff : ∀ xs ys : List (String × Json), Json.beqFields xs ys = true ↔ xs = ys
  | [], [] => by simp [Json.beqFields]
  | (k1, v1) :: xs, (k2, v2) :: ys => by
      simp [Json.beqFields, Json.beq_iff v1 v2, Json.beqFields_iff xs ys]
  | [], _ :: _ => by simp [Json.beqFields]
  | _ :: _, [] => by simp [Json.beqFields]

end

instance : DecidableEq Json := fun a b =>
  decidable_of_iff (Json.beq a b = true) (Json.beq_iff a b)

/-- Key lookup in an association list, i.e. Python `d[k]` returning `None`
on a missing key (callers decide whether that is a `KeyError`). -/
def lookupFields : List (String × Json) → String → Option Json
  | [], _ => none
  | (k1, v) :: t, k => if k1 = k then some v else lookupFields t k

/-- Python `d[k]` on a JSON value; `none` on non-objects and missing keys. -/
def Json.lookup : Json → String → Option Json
  | .obj fields, k => lookupFields fields k
  | _, _ => none

/-- Whether a JSON object carries the given key. -/
def Json.hasKey (j : Json) (k : String) : Bool :=
  (j.lookup k).isSome

/-- The top-level keys of a JSON object (empty for non-objects). -/
def Json.objKeys : Json → List String
  | .obj fields => fields.map Prod.fst
  | _ => []

/-- Python dict assignment `d[k] = v`: replace the value in place if the key
exists, append the pair otherwise. -/
def setFields : List (String × Json) → String → Json → List (String × Json)
  | [], k, v => [(k, v)]
  | (k1, v1) :: t, k, v =>
      if k1 = k then (k1, v) :: t else (k1, v1) :: setFields t k v

/-- Python dict assignment on a JSON value.  The modules only ever assign
into decoded JSON objects, so the non-object case is never exercised. -/
def Json.setField : Json → String → Json → Json
  | .obj fields, k, v => .obj (setFields fields k v)
  | j, _, _ => j

/-- Python `d.pop(k)`: the popped value together with the remaining pairs,
`none` when the key is absent (a `KeyError` at the call sites). -/
def popFields : List (String × Json) → String → Option (Json × List (String × Json))
  | [], _ => none
  | (k1, v1) :: t, k =>
      if k1 = k then some (v1, t)
      else (popFields t k).map (fun r => (r.1, (k1, v1) :: r.2))

/-- Python `d.pop(k)` on a JSON value; `none` on non-objects (an
`AttributeError` at the call sites) and on missing keys. -/
def Json.popField : Json → String → Option (Json × Json)
  | .obj fields, k => (popFields fields k).map (fun r => (r.1, .obj r.2))
  | _, _ => none

/-- An HTTP response as seen by the modules: status code, the
content-length header, and the JSON-decoded body. -/
structure HttpResponse where
  status : Nat
  content_length : Nat
  body : Json
deriving DecidableEq

/-- Modelled from the spec: `requestParse` lives in the shared base module
(`module_utils/base.py`), which is not among the provided sources.  Per the
error-handling design it classifies a non-2xx status into a fixed message
per class (401, 403, 500) and otherwise reports the raw status code.  The
401/403/500 texts follow `errorHandlingPostOrPutRequest` in
harbor_retention.py, which implements the same taxonomy in-source. -/
def requestParse (resp : HttpResponse) : String :=
  if resp.status = 401 then "User need to log in first."
  else if resp.status = 403 then "User does not have permission of admin role."
  else if resp.status = 500 then "Unexpected internal errors."
  else "Unknown HTTP status code: " ++ toString resp.status

/-- harbor_retention.py `getRetentionPolicy` (lines 110-118): any status
other than 200 aborts via `fail_json` with the classified message; a 200
body is returned as decoded. -/
def getRetentionPolicy (resp : HttpResponse) : Except String Json :=
  if resp.status = 200 then .ok resp.body else .error (requestParse resp)

/-- harbor_tag_immutability.py `getTagImmutabilityList` (lines 146-154):
same shape as the retention fetch. -/
def getTagImmutabilityList (resp : HttpResponse) : Except String Json :=
  if resp.status = 200 then .ok resp.body else .error (requestParse resp)

/-- harbor_scan_all_schedule.py `getSchedule` (lines 30-44): a 200 response
with content-length 0 yields the empty mapping; EVERY other response —
including non-2xx statuses, which are never checked — has its body decoded
and rebuilt as a mapping keeping only the `schedule` key.  `none` models
the uncaught `KeyError` when the body lacks that key. -/
def getSchedule (resp : HttpResponse) : Option Json :=
  if resp.status = 200 ∧ resp.content_length = 0 then some (.obj [])
  else (resp.body.lookup "schedule").map (fun s => .obj [("schedule", s)])

/-- A mutating HTTP call issued by a reconciler run. -/
inductive MutCall where
  | post (payload : Json)
  | put (payload : Json)
  | delete (id : Json)
deriving DecidableEq

/-- The `self.result` object handed to `exit_json`: the changed flag, the
diff recorded by `setChanges`, and the `retention_policy` key used by the
retention module creation path. -/
structure RunResult (α : Type) where
  changed : Bool
  diff : Option (α × α)
  retention_policy : Option Json
deriving DecidableEq

/-- The initial `self.result = dict(changed=False)`. -/
def emptyResult {α : Type} : RunResult α :=
  { changed := false, diff := none, retention_policy := none }

/-- Modelled from the spec: `setChanges` lives in the shared base module
(`module_utils/base.py`), which is not among the provided sources.  Per the
Result Reporter design it records `changed = true` together with the
before/after diff payload. -/
def setChanges {α : Type} (result : RunResult α) (before after : α) : RunResult α :=
  { result with changed := true, diff := some (before, after) }

/-- How one reconciler run ends: a controlled exit carrying the reported
result, or an uncaught Python exception.  Both record the mutating calls
issued so far and the final registry state. -/
inductive Outcome (σ : Type) (α : Type) where
  | exited (result : RunResult α) (calls : List MutCall) (state : σ)
  | crashed (exc : String) (calls : List MutCall) (state : σ)
deriving DecidableEq

/-- The mutating calls issued by a run, however it ended. -/
def Outcome.callsOf {σ α : Type} : Outcome σ α → List MutCall
  | .exited _ calls _ => calls
  | .crashed _ calls _ => calls

/-- The message surfaced on `fail_json(msg="Project not found", ...)` as the
source intends it. -/
def projectNotFoundMsg : String := "Project not found"

/-- The exception actually raised on the project-not-found branches: both
modules write `fail_json(msg="Project not found", **self.self.result)`, and
evaluating the argument `self.self.result` raises an `AttributeError`
(neither the module classes nor the base module define an attribute named
`self`) before `fail_json` can run. -/
def attrErrorSelfSelf : String :=
  "AttributeError: module object has no attribute self"

/-- Uncaught `KeyError` when a fetched tag-immutability rule lacks `id`. -/
def keyErrorId : String := "KeyError: id"

/-- Uncaught `KeyError` when a schedule body lacks the `schedule` key. -/
def keyErrorSchedule : String := "KeyError: schedule"

/-- Uncaught `TypeError` when the post-create project lookup returns None. -/
def typeErrorProjectNone : String := "TypeError: NoneType is not subscriptable"

/-- Uncaught `KeyError` when the post-create metadata lacks retention_id. -/
def keyErrorRetentionId : String := "KeyError: retention_id"

/-- The project record returned by `getProjectByName`: its id and the
optional `metadata.retention_id`. -/
structure HarborProject where
  project_id : Int
  retention_id : Option Nat
deriving DecidableEq

/-! ## harbor_retention.py -/

/-- The validated input parameters of the retention module (argspec lines
81-91): the rule list is passed through verbatim, so rules are opaque JSON
values here. -/
structure RetentionParams where
  rules : List Json
  schedule_cron : String
  force : Bool
  check_mode : Bool
deriving DecidableEq

/-- harbor_retention.py `createDesiredRetentionPolicy` (lines 93-108). -/
def createDesiredRetentionPolicy (rules : List Json) (project_id : Int)
    (schedule_cron : String) : Json :=
  .obj [("algorithm", .str "or"),
        ("rules", .arr rules),
        ("scope", .obj [("level", .str "project"), ("ref", .num project_id)]),
        ("trigger", .obj [("kind", .str "Schedule"),
                          ("settings", .obj [("cron", .str schedule_cron)])])]

/-- The registry endpoints the retention module touches, abstracted over a
registry state type.  Reads are modelled at the decoded-body level (the
status checks of the fetch helpers are embedded separately as
`getRetentionPolicy`); `getProject` returning `none` models
`getProjectByName` finding no project. -/
structure RetentionRegistry (σ : Type) where
  getProject : σ → Option HarborProject
  getPolicy : σ → Nat → Json
  putPolicy : σ → Nat → Json → σ
  postPolicy : σ → Json → σ

/-- harbor_retention.py `HarborRetentionModule.__init__` (lines 135-207):
resolve the project, build the desired policy, then either compare/update
the existing policy (when `metadata.retention_id` exists) or create a new
one.  The fetched policy body is compared verbatim — no field is stripped
before the `before == desired` comparison. -/
def runRetention {σ : Type} (reg : RetentionRegistry σ) (s : σ)
    (p : RetentionParams) : Outcome σ Json :=
  match reg.getProject s with
  | none => .crashed attrErrorSelfSelf [] s
  | some project =>
    let desired := createDesiredRetentionPolicy p.rules project.project_id p.schedule_cron
    match project.retention_id with
    | some rid =>
      let before := reg.getPolicy s rid
      if p.force = false ∧ before = desired then
        .exited emptyResult [] s
      else if p.check_mode then
        .exited (setChanges emptyResult before desired) [] s
      else
        let s1 := reg.putPolicy s rid desired
        let after := reg.getPolicy s1 rid
        .exited (if before ≠ after then setChanges emptyResult before after else emptyResult)
          [.put desired] s1
    | none =>
      if p.check_mode then
        .exited { changed := true, diff := none, retention_policy := some desired } [] s
      else
        let s1 := reg.postPolicy s desired
        match reg.getProject s1 with
        | none => .crashed typeErrorProjectNone [.post desired] s1
        | some project2 =>
          match project2.retention_id with
          | none => .crashed keyErrorRetentionId [.post desired] s1
          | some rid2 =>
            let after := reg.getPolicy s1 rid2
            .exited { changed := true, diff := none, retention_policy := some after }
              [.post desired] s1

/-- A faithful-storage registry for the retention module: `put`/`post`
store the payload verbatim and the policy fetch echoes it back, matching
the design assumption that the server echoes the identical shape. -/
structure RetentionEchoState where
  has_project : Bool
  project_id : Int
  retention : Option (Nat × Json)
  next_id : Nat
deriving DecidableEq

/-- The echo instance of the retention registry interface. -/
def retentionEcho : RetentionRegistry RetentionEchoState where
  getProject s :=
    if s.has_project then some ⟨s.project_id, s.retention.map Prod.fst⟩ else none
  getPolicy s rid :=
    match s.retention with
    | some r => if r.1 = rid then r.2 else .null
    | none => .null
  putPolicy s rid body := { s with retention := some (rid, body) }
  postPolicy s body :=
    { s with retention := some (s.next_id, body), next_id := s.next_id + 1 }

/-! ## harbor_scan_all_schedule.py -/

/-- The validated input parameters of the scan-all schedule module
(argspec lines 65-74); `sched_type` embeds the `type` option, whose
argspec default is `"Custom"`. -/
structure ScanAllScheduleParams where
  schedule_cron : String
  sched_type : String
  check_mode : Bool
deriving DecidableEq

/-- The argspec default of the `type` option (line 70). -/
def scanAllTypeDefault : String := "Custom"

/-- harbor_scan_all_schedule.py `constructDesired` (lines 56-62). -/
def constructDesired (schedule_cron sched_type : String) : Json :=
  .obj [("schedule", .obj [("cron", .str schedule_cron),
                           ("type", .str sched_type)])]

/-- The registry endpoints the scan-all module touches.  `fetchSchedule`
returning `none` models a 200 response with content-length 0 (no schedule
configured); `some body` models a response carrying a JSON body. -/
structure ScanRegistry (σ : Type) where
  fetchSchedule : σ → Option Json
  putSchedule : σ → Json → σ

/-- The body-to-canonical step of `getSchedule` (lines 37-44): the empty
mapping for an empty body, otherwise a mapping keeping only the `schedule`
key; `none` models the uncaught `KeyError` on a body without that key. -/
def getScheduleCanon (fetched : Option Json) : Option Json :=
  match fetched with
  | none => some (.obj [])
  | some body => (body.lookup "schedule").map (fun sch => .obj [("schedule", sch)])

/-- harbor_scan_all_schedule.py `HarborScanAllScheduleModule.__init__`
(lines 76-104): build the desired mapping, fetch and canonicalize the
current one, and on inequality either record the preview (check mode) or
PUT the desired schedule, re-fetch, and record before/after. -/
def runScanAllSchedule {σ : Type} (reg : ScanRegistry σ) (s : σ)
    (p : ScanAllScheduleParams) : Outcome σ Json :=
  let desired := constructDesired p.schedule_cron p.sched_type
  match getScheduleCanon (reg.fetchSchedule s) with
  | none => .crashed keyErrorSchedule [] s
  | some before =>
    if desired ≠ before then
      if p.check_mode then
        .exited (setChanges emptyResult before desired) [] s
      else
        let s1 := reg.putSchedule s desired
        match getScheduleCanon (reg.fetchSchedule s1) with
        | none => .crashed keyErrorSchedule [.put desired] s1
        | some after => .exited (setChanges emptyResult before after) [.put desired] s1
    else
      .exited emptyResult [] s

/-- A faithful-storage registry for the scan-all module: the state is the
stored schedule body (`none` = never configured, fetched as an empty
200 response). -/
structure ScanEchoState where
  schedule : Option Json
deriving DecidableEq

/-- The echo instance of the scan registry interface. -/
def scanEcho : ScanRegistry ScanEchoState where
  fetchSchedule s := s.schedule
  putSchedule _ body := ⟨some body⟩

/-! ## harbor_tag_immutability.py -/

/-- One entry of the `tag_immutability_list` option: a repository matcher
and a tag matcher, each a kind plus a pattern (argspec lines 96-114). -/
structure TagImmutabilityObject where
  repository_kind : String
  repository_pattern : String
  tag_kind : String
  tag_pattern : String
deriving DecidableEq

/-- The validated input parameters of the tag-immutability module. -/
structure TagImmutabilityParams where
  tag_immutability_list : List TagImmutabilityObject
  check_mode : Bool
deriving DecidableEq

/-- harbor_tag_immutability.py `createDesiredTagImmutability`
(lines 123-144). -/
def createDesiredTagImmutability (o : TagImmutabilityObject) (project_id : Int) : Json :=
  .obj [("disabled", .jbool false),
        ("action", .str "immutable"),
        ("scope_selectors",
          .obj [("repository",
                 .arr [.obj [("kind", .str "doublestar"),
                             ("decoration", .str o.repository_kind),
                             ("pattern", .str o.repository_pattern)]])]),
        ("tag_selectors",
          .arr [.obj [("kind", .str "doublestar"),
                      ("decoration", .str o.tag_kind),
                      ("pattern", .str o.tag_pattern)]]),
        ("project_id", .num project_id),
        ("priority", .num 0),
        ("template", .str "immutable_template")]

/-- harbor_tag_immutability.py `createDesiredTagImmutabilityList`
(lines 116-121). -/
def createDesiredTagImmutabilityList (objs : List TagImmutabilityObject)
    (project_id : Int) : List Json :=
  objs.map (fun o => createDesiredTagImmutability o project_id)

/-- The in-place overwrites of `formatGetTagImmutabilityList`
(lines 159-161): force `project_id`, `priority` and `disabled` to the same
fixed values used on the desired side so the remaining fields compare
directly. -/
def forceCompareFields (body : Json) (project_id : Int) : Json :=
  ((body.setField "project_id" (.num project_id)).setField "priority"
      (.num 0)).setField "disabled" (.jbool false)

/-- One step of `formatGetTagImmutabilityList` (lines 156-162): pop the
server-assigned `id` out of a fetched rule (retaining it for deletion) and
overwrite the comparison fields.  `none` models the uncaught `KeyError`
when a fetched rule carries no `id`. -/
def formatOneTagRule (body : Json) (project_id : Int) : Option (Json × Json) :=
  (body.popField "id").map (fun r => (r.1, forceCompareFields r.2 project_id))

/-- harbor_tag_immutability.py `formatGetTagImmutabilityList`
(lines 156-162), returning the positional (id, canonical item) pairs. -/
def formatGetTagImmutabilityList : List Json → Int → Option (List (Json × Json))
  | [], _ => some []
  | b :: bs, project_id =>
    match formatOneTagRule b project_id, formatGetTagImmutabilityList bs project_id with
    | some x, some xs => some (x :: xs)
    | _, _ => none

/-- Line 220: `[x for x in desired_tag_immutability_list if x not in before]`. -/
def tagToAdd (desired before : List Json) : List Json :=
  desired.filter (fun x => decide (x ∉ before))

/-- Line 224: `[x for x in range(len(before)) if before[x] not in desired]`. -/
def tagDeleteKeys (before desired : List Json) : List Nat :=
  (List.range before.length).filter (fun i => decide (before.getD i .null ∉ desired))

/-- Line 225: `[before_tag_immutability_ids[x] for x in keys]`. -/
def tagDeleteIds (ids : List Json) (keys : List Nat) : List Json :=
  keys.map (fun i => ids.getD i .null)

/-- The registry endpoints the tag-immutability module touches.  The rule
store is surfaced as (server id, stored rule body) pairs; the GET body of
each rule is its stored body with the server id written into the `id`
field. -/
structure TagRegistry (σ : Type) where
  getProject : σ → Option HarborProject
  getRules : σ → List (Nat × Json)
  postRule : σ → Json → σ
  deleteRule : σ → Json → σ

/-- How the registry renders a stored rule into a GET response item: the
stored body with the server-assigned `id` added. -/
def renderRule (r : Nat × Json) : Json :=
  r.2.setField "id" (.num r.1)

/-- harbor_tag_immutability.py `HarborTagImmutabilityModule.__init__`
(lines 182-241): resolve the project, build the desired rule list, fetch
and canonicalize the current rules, exit unchanged on list equality,
record a preview in check mode, and otherwise POST every desired rule not
structurally present, DELETE (by retained id) every current rule not
structurally desired, re-fetch, and report changed from the re-fetched
comparison. -/
def runTagImmutability {σ : Type} (reg : TagRegistry σ) (s : σ)
    (p : TagImmutabilityParams) : Outcome σ (List Json) :=
  match reg.getProject s with
  | none => .crashed attrErrorSelfSelf [] s
  | some project =>
    let pid := project.project_id
    let desired := createDesiredTagImmutabilityList p.tag_immutability_list pid
    let bodies := (reg.getRules s).map renderRule
    match formatGetTagImmutabilityList bodies pid with
    | none => .crashed keyErrorId [] s
    | some pairs =>
      let before := pairs.map Prod.snd
      let before_ids := pairs.map Prod.fst
      if before = desired then
        .exited emptyResult [] s
      else if p.check_mode then
        .exited (setChanges emptyResult before desired) [] s
      else
        let to_add := tagToAdd desired before
        let s1 := to_add.foldl reg.postRule s
        let del_ids := tagDeleteIds before_ids (tagDeleteKeys before desired)
        let s2 := del_ids.foldl reg.deleteRule s1
        let calls := to_add.map MutCall.post ++ del_ids.map MutCall.delete
        let bodies2 := (reg.getRules s2).map renderRule
        match formatGetTagImmutabilityList bodies2 pid with
        | none => .crashed keyErrorId calls s2
        | some pairs2 =>
          let after := pairs2.map Prod.snd
          .exited (if before ≠ after then setChanges emptyResult before after else emptyResult)
            calls s2

/-- A faithful-storage registry for the tag-immutability module: rules are
stored as (fresh id, payload) pairs, POST appends with a fresh id, DELETE
removes the rules whose rendered id matches the URL id. -/
structure TagEchoState where
  project : Option Int
  rules : List (Nat × Json)
  next_id : Nat
deriving DecidableEq

/-- The echo instance of the tag registry interface. -/
def tagEcho : TagRegistry TagEchoState where
  getProject s := s.project.map (fun pid => ⟨pid, none⟩)
  getRules s := s.rules
  postRule s body :=
    { s with rules := s.rules ++ [(s.next_id, body)], next_id := s.next_id + 1 }
  deleteRule s idv :=
    { s with rules := s.rules.filter (fun r => decide (Json.num r.1 ≠ idv)) }

/-- A registry whose writes are dropped by the server: used to exhibit that
the reported changed flag tracks the re-fetched state, not the calls
issued. -/
def tagFrozen : TagRegistry TagEchoState where
  getProject s := s.project.map (fun pid => ⟨pid, none⟩)
  getRules s := s.rules
  postRule s _ := s
  deleteRule s _ := s

/-- The invariant on stored tag-immutability rules needed for the fetched
list to canonicalize without a `KeyError`: every stored body is a JSON
object that does not itself carry an `id` key (the server adds it when
rendering). -/
def TagBodiesOk (rules : List (Nat × Json)) : Prop :=
  ∀ r ∈ rules, (∃ fields, r.2 = Json.obj fields) ∧ r.2.hasKey "id" = false

/-- The id part of the stored-rule invariant: server-assigned ids are
pairwise distinct and below the next fresh id. -/
def TagIdsOk (rules : List (Nat × Json)) (bound : Nat) : Prop :=
  (rules.map Prod.fst).Nodup ∧ ∀ r ∈ rules, r.1 < bound

/-! ## Association-list and canonicalization lemmas -/

theorem lookupFields_eq_none {fields : List (String × Json)} {k : String} :
    lookupFields fields k = none ↔ k ∉ fields.map Prod.fst := by
  induction fields with
  | nil => simp [lookupFields]
  | cons hd t ih =>
    obtain ⟨k1, v1⟩ := hd
    by_cases h : k1 = k
    · subst h
      simp [lookupFields]
    · simp [lookupFields, h, ih, Ne.symm h]

theorem popFields_setFields {fields : List (String × Json)} {k : String} (v : Json)
    (h : lookupFields fields k = none) :
    popFields (setFields fields k v) k = some (v, fields) := by
  induction fields with
  | nil => simp [setFields, popFields]
  | cons hd t ih =>
    obtain ⟨k1, v1⟩ := hd
    by_cases hk : k1 = k
    · subst hk
      simp [lookupFields] at h
    · simp only [lookupFields, if_neg hk] at h
      simp [setFields, popFields, hk, ih h]

theorem lookupFields_setFields_ne {fields : List (String × Json)} {k k2 : String}
    (v : Json) (h : k2 ≠ k) :
    lookupFields (setFields fields k2 v) k = lookupFields fields k := by
  induction fields with
  | nil => simp [setFields, lookupFields, h]
  | cons hd t ih =>
    obtain ⟨k1, v1⟩ := hd
    by_cases hk : k1 = k2
    · subst hk
      simp [setFields, lookupFields, h]
    · simp [setFields, lookupFields, hk, ih]

theorem popFields_lookup_none {fields rest : List (String × Json)} {k : String} {v : Json}
    (hnd : (fields.map Prod.fst).Nodup)
    (h : popFields fields k = some (v, rest)) :
    lookupFields rest k = none := by
  induction fields generalizing rest with
  | nil => simp [popFields] at h
  | cons hd t ih =>
    obtain ⟨k1, v1⟩ := hd
    simp only [List.map_cons, List.nodup_cons] at hnd
    by_cases hk : k1 = k
    · subst hk
      simp only [popFields, if_pos rfl, ite_true, Option.some.injEq, Prod.mk.injEq] at h
      rw [← h.2]
      exact lookupFields_eq_none.mpr hnd.1
    · simp only [popFields, if_neg hk] at h
      cases hpop : popFields t k with
      | none => rw [hpop] at h; simp at h
      | some r =>
        obtain ⟨rv, rrest⟩ := r
        rw [hpop] at h
        simp only [Option.map_some', Option.some.injEq, Prod.mk.injEq] at h
        rw [← h.2]
        have hpop2 : popFields t k = some (v, rrest) := by rw [hpop, h.1]
        simp [lookupFields, hk, ih hnd.2 hpop2]

theorem hasKey_setField_ne (j : Json) {k k2 : String} (v : Json) (h : k2 ≠ k) :
    (j.setField k2 v).hasKey k = j.hasKey k := by
  cases j with
  | obj fields =>
    simp only [Json.setField, Json.hasKey, Json.lookup]
    rw [lookupFields_setFields_ne v h]
  | null => rfl
  | jbool b => rfl
  | num n => rfl
  | str s => rfl
  | arr xs => rfl

theorem popField_setField {fields : List (String × Json)} {k : String} (v : Json)
    (h : (Json.obj fields).hasKey k = false) :
    ((Json.obj fields).setField k v).popField k = some (v, Json.obj fields) := by
  have h2 : lookupFields fields k = none := by
    cases hl : lookupFields fields k with
    | none => rfl
    | some v2 =>
      simp only [Json.hasKey, Json.lookup, hl, Option.isSome_some] at h
      exact absurd h (by decide)
  simp [Json.setField, Json.popField, popFields_setFields v h2]

theorem hasKey_forceCompareFields {b : Json} (pid : Int)
    (h : b.hasKey "id" = false) :
    (forceCompareFields b pid).hasKey "id" = false := by
  unfold forceCompareFields
  rw [hasKey_setField_ne _ _ (by decide), hasKey_setField_ne _ _ (by decide),
    hasKey_setField_ne _ _ (by decide)]
  exact h

theorem formatOneTagRule_renderRule {fields : List (String × Json)} (n : Nat) (pid : Int)
    (h : (Json.obj fields).hasKey "id" = false) :
    formatOneTagRule (renderRule (n, Json.obj fields)) pid =
      some (Json.num n, forceCompareFields (Json.obj fields) pid) := by
  simp [formatOneTagRule, renderRule, popField_setField _ h]

theorem formatList_renderRule {rules : List (Nat × Json)} (pid : Int)
    (h : TagBodiesOk rules) :
    formatGetTagImmutabilityList (rules.map renderRule) pid =
      some (rules.map (fun r => (Json.num r.1, forceCompareFields r.2 pid))) := by
  induction rules with
  | nil => rfl
  | cons r t ih =>
    obtain ⟨⟨fields, hfields⟩, hid⟩ := h r (by simp)
    have ht : TagBodiesOk t := fun x hx => h x (by simp [hx])
    obtain ⟨n, body⟩ := r
    simp only at hfields
    subst hfields
    simp only [List.map_cons, formatGetTagImmutabilityList,
      formatOneTagRule_renderRule n pid hid, ih ht]

theorem createDesiredTagImmutability_hasKey_id (o : TagImmutabilityObject) (pid : Int) :
    (createDesiredTagImmutability o pid).hasKey "id" = false := rfl

theorem forceCompareFields_createDesired (o : TagImmutabilityObject) (pid : Int) :
    forceCompareFields (createDesiredTagImmutability o pid) pid =
      createDesiredTagImmutability o pid := rfl

/-! ## Echo-registry fold characterizations and differ lemmas -/

theorem tagEcho_postAll_project (L : List Json) (s : TagEchoState) :
    (L.foldl tagEcho.postRule s).project = s.project := by
  induction L generalizing s with
  | nil => rfl
  | cons x t ih =>
    rw [List.foldl_cons, ih]
    rfl

theorem tagEcho_postAll_next_id (L : List Json) (s : TagEchoState) :
    (L.foldl tagEcho.postRule s).next_id = s.next_id + L.length := by
  induction L generalizing s with
  | nil => rfl
  | cons x t ih =>
    rw [List.foldl_cons, ih]
    simp only [tagEcho, List.length_cons]
    omega

theorem tagEcho_postAll_rules (L : List Json) (s : TagEchoState) :
    (L.foldl tagEcho.postRule s).rules =
      s.rules ++ (List.range' s.next_id L.length).zip L := by
  induction L generalizing s with
  | nil => simp
  | cons x t ih =>
    rw [List.foldl_cons, ih]
    simp only [tagEcho, List.length_cons, List.range'_succ, List.zip_cons_cons]
    simp

theorem tagEcho_deleteAll_project (ids : List Json) (s : TagEchoState) :
    (ids.foldl tagEcho.deleteRule s).project = s.project := by
  induction ids generalizing s with
  | nil => rfl
  | cons j t ih =>
    rw [List.foldl_cons, ih]
    rfl

theorem tagEcho_deleteAll_next_id (ids : List Json) (s : TagEchoState) :
    (ids.foldl tagEcho.deleteRule s).next_id = s.next_id := by
  induction ids generalizing s with
  | nil => rfl
  | cons j t ih =>
    rw [List.foldl_cons, ih]
    rfl

theorem tagEcho_deleteAll_rules (ids : List Json) (s : TagEchoState) :
    (ids.foldl tagEcho.deleteRule s).rules =
      s.rules.filter (fun r => decide (Json.num r.1 ∉ ids)) := by
  induction ids generalizing s with
  | nil =>
    simp only [List.foldl_nil]
    exact (List.filter_eq_self.mpr (by simp)).symm
  | cons j t ih =>
    rw [List.foldl_cons, ih]
    simp only [tagEcho]
    rw [List.filter_filter]
    refine List.filter_congr ?_
    intro x _
    by_cases h1 : Json.num x.1 = j <;> by_cases h2 : Json.num x.1 ∈ t <;>
      simp [h1, h2]

theorem tagDeleteKeys_cons (c : Json) (cs D : List Json) :
    tagDeleteKeys (c :: cs) D =
      (if c ∈ D then List.map Nat.succ (tagDeleteKeys cs D)
       else 0 :: List.map Nat.succ (tagDeleteKeys cs D)) := by
  unfold tagDeleteKeys
  rw [List.length_cons, List.range_succ_eq_map, List.filter_cons, List.filter_map]
  have hsucc : (fun i => decide ((c :: cs).getD i Json.null ∉ D)) ∘ Nat.succ =
      (fun i => decide (cs.getD i Json.null ∉ D)) := by
    funext n
    simp [List.getD_cons_succ]
  rw [hsucc]
  by_cases hc : c ∈ D
  · simp [hc]
  · simp [hc]

theorem tagDeleteIds_map_succ (i : Json) (is : List Json) (ks : List Nat) :
    tagDeleteIds (i :: is) (List.map Nat.succ ks) = tagDeleteIds is ks := by
  unfold tagDeleteIds
  rw [List.map_map]
  exact List.map_congr_left (fun n _ => by simp [List.getD_cons_succ])

theorem tagDeleteIds_spec (ids canon D : List Json) (h : ids.length = canon.length) :
    tagDeleteIds ids (tagDeleteKeys canon D) =
      ((ids.zip canon).filter (fun x => decide (x.2 ∉ D))).map Prod.fst := by
  induction canon generalizing ids with
  | nil =>
    have hids : ids = [] := List.length_eq_zero.mp (by simpa using h)
    subst hids
    rfl
  | cons c cs ih =>
    cases ids with
    | nil => simp at h
    | cons i is =>
      have hlen : is.length = cs.length := by simpa using h
      rw [tagDeleteKeys_cons, List.zip_cons_cons, List.filter_cons]
      by_cases hc : c ∈ D
      · rw [if_pos hc, tagDeleteIds_map_succ, ih is hlen]
        have hcond : ¬(decide (((i, c) : Json × Json).2 ∉ D) = true) := by simp [hc]
        rw [if_neg hcond]
      · rw [if_neg hc]
        have hstep : tagDeleteIds (i :: is) (0 :: List.map Nat.succ (tagDeleteKeys cs D)) =
            i :: tagDeleteIds (i :: is) (List.map Nat.succ (tagDeleteKeys cs D)) := rfl
        rw [hstep, tagDeleteIds_map_succ, ih is hlen]
        have hcond : decide (((i, c) : Json × Json).2 ∉ D) = true := by simp [hc]
        rw [if_pos hcond, List.map_cons]

/-! ## Branch equations for the reconciler runs -/

theorem runRetention_noProject {σ : Type} (reg : RetentionRegistry σ) (s : σ)
    (p : RetentionParams) (h : reg.getProject s = none) :
    runRetention reg s p = .crashed attrErrorSelfSelf [] s := by
  simp only [runRetention, h]

theorem runRetention_noChange {σ : Type} (reg : RetentionRegistry σ) (s : σ)
    (p : RetentionParams) {project : HarborProject} {rid : Nat}
    (hP : reg.getProject s = some project) (hR : project.retention_id = some rid)
    (hF : p.force = false)
    (hEq : reg.getPolicy s rid =
      createDesiredRetentionPolicy p.rules project.project_id p.schedule_cron) :
    runRetention reg s p = .exited emptyResult [] s := by
  simp only [runRetention, hP, hR, hEq]
  simp [hF]

theorem runRetention_checkUpdate {σ : Type} (reg : RetentionRegistry σ) (s : σ)
    (p : RetentionParams) {project : HarborProject} {rid : Nat}
    (hP : reg.getProject s = some project) (hR : project.retention_id = some rid)
    (hC : p.check_mode = true)
    (hNe : p.force = true ∨ reg.getPolicy s rid ≠
      createDesiredRetentionPolicy p.rules project.project_id p.schedule_cron) :
    runRetention reg s p =
      .exited (setChanges emptyResult (reg.getPolicy s rid)
        (createDesiredRetentionPolicy p.rules project.project_id p.schedule_cron)) [] s := by
  simp only [runRetention, hP, hR, hC]
  have hcond : ¬(p.force = false ∧ reg.getPolicy s rid =
      createDesiredRetentionPolicy p.rules project.project_id p.schedule_cron) := by
    rcases hNe with h | h
    · intro hx
      rw [hx.1] at h
      exact absurd h (by decide)
    · intro hx
      exact h hx.2
  rw [if_neg hcond]
  simp

theorem runRetention_applyUpdate {σ : Type} (reg : RetentionRegistry σ) (s : σ)
    (p : RetentionParams) {project : HarborProject} {rid : Nat}
    (hP : reg.getProject s = some project) (hR : project.retention_id = some rid)
    (hC : p.check_mode = false)
    (hNe : p.force = true ∨ reg.getPolicy s rid ≠
      createDesiredRetentionPolicy p.rules project.project_id p.schedule_cron) :
    runRetention reg s p =
      (let desired := createDesiredRetentionPolicy p.rules project.project_id p.schedule_cron
       let before := reg.getPolicy s rid
       let s1 := reg.putPolicy s rid desired
       let after := reg.getPolicy s1 rid
       .exited (if before ≠ after then setChanges emptyResult before after else emptyResult)
         [.put desired] s1) := by
  simp only [runRetention, hP, hR, hC]
  have hcond : ¬(p.force = false ∧ reg.getPolicy s rid =
      createDesiredRetentionPolicy p.rules project.project_id p.schedule_cron) := by
    rcases hNe with h | h
    · intro hx
      rw [hx.1] at h
      exact absurd h (by decide)
    · intro hx
      exact h hx.2
  rw [if_neg hcond]
  simp

theorem runRetention_checkCreate {σ : Type} (reg : RetentionRegistry σ) (s : σ)
    (p : RetentionParams) {project : HarborProject}
    (hP : reg.getProject s = some project) (hR : project.retention_id = none)
    (hC : p.check_mode = true) :
    runRetention reg s p =
      .exited { changed := true, diff := none,
                retention_policy := some (createDesiredRetentionPolicy p.rules
                  project.project_id p.schedule_cron) } [] s := by
  simp only [runRetention, hP, hR, hC]
  simp

theorem runRetention_applyCreate {σ : Type} (reg : RetentionRegistry σ) (s : σ)
    (p : RetentionParams) {project project2 : HarborProject} {rid2 : Nat}
    (hP : reg.getProject s = some project) (hR : project.retention_id = none)
    (hC : p.check_mode = false)
    (hP2 : reg.getProject (reg.postPolicy s
      (createDesiredRetentionPolicy p.rules project.project_id p.schedule_cron)) =
        some project2)
    (hR2 : project2.retention_id = some rid2) :
    runRetention reg s p =
      (let desired := createDesiredRetentionPolicy p.rules project.project_id p.schedule_cron
       let s1 := reg.postPolicy s desired
       .exited { changed := true, diff := none,
                 retention_policy := some (reg.getPolicy s1 rid2) } [.post desired] s1) := by
  simp only [runRetention, hP, hR, hC, hP2, hR2]
  simp

theorem runScan_crash {σ : Type} (reg : ScanRegistry σ) (s : σ)
    (p : ScanAllScheduleParams)
    (h : getScheduleCanon (reg.fetchSchedule s) = none) :
    runScanAllSchedule reg s p = .crashed keyErrorSchedule [] s := by
  simp only [runScanAllSchedule, h]

theorem runScan_noChange {σ : Type} (reg : ScanRegistry σ) (s : σ)
    (p : ScanAllScheduleParams) {before : Json}
    (h : getScheduleCanon (reg.fetchSchedule s) = some before)
    (hEq : constructDesired p.schedule_cron p.sched_type = before) :
    runScanAllSchedule reg s p = .exited emptyResult [] s := by
  simp only [runScanAllSchedule, h]
  simp [hEq]

theorem runScan_check {σ : Type} (reg : ScanRegistry σ) (s : σ)
    (p : ScanAllScheduleParams) {before : Json}
    (h : getScheduleCanon (reg.fetchSchedule s) = some before)
    (hNe : constructDesired p.schedule_cron p.sched_type ≠ before)
    (hC : p.check_mode = true) :
    runScanAllSchedule reg s p =
      .exited (setChanges emptyResult before
        (constructDesired p.schedule_cron p.sched_type)) [] s := by
  simp only [runScanAllSchedule, h, hC]
  rw [if_pos hNe]
  simp

theorem runScan_apply {σ : Type} (reg : ScanRegistry σ) (s : σ)
    (p : ScanAllScheduleParams) {before after : Json}
    (h : getScheduleCanon (reg.fetchSchedule s) = some before)
    (hNe : constructDesired p.schedule_cron p.sched_type ≠ before)
    (hC : p.check_mode = false)
    (h2 : getScheduleCanon (reg.fetchSchedule
      (reg.putSchedule s (constructDesired p.schedule_cron p.sched_type))) = some after) :
    runScanAllSchedule reg s p =
      .exited (setChanges emptyResult before after)
        [.put (constructDesired p.schedule_cron p.sched_type)]
        (reg.putSchedule s (constructDesired p.schedule_cron p.sched_type)) := by
  simp only [runScanAllSchedule, h, hC, h2]
  rw [if_pos hNe]
  simp

theorem runTag_noProject {σ : Type} (reg : TagRegistry σ) (s : σ)
    (p : TagImmutabilityParams) (h : reg.getProject s = none) :
    runTagImmutability reg s p = .crashed attrErrorSelfSelf [] s := by
  simp only [runTagImmutability, h]

theorem runTag_noChange {σ : Type} (reg : TagRegistry σ) (s : σ)
    (p : TagImmutabilityParams) {project : HarborProject} {pid : Int}
    {pairs : List (Json × Json)}
    (hP : reg.getProject s = some project) (hpid : project.project_id = pid)
    (hFmt : formatGetTagImmutabilityList ((reg.getRules s).map renderRule)
      pid = some pairs)
    (hEq : pairs.map Prod.snd =
      createDesiredTagImmutabilityList p.tag_immutability_list pid) :
    runTagImmutability reg s p = .exited emptyResult [] s := by
  subst hpid
  simp only [runTagImmutability, hP, hFmt]
  simp [hEq]

theorem runTag_check {σ : Type} (reg : TagRegistry σ) (s : σ)
    (p : TagImmutabilityParams) {project : HarborProject} {pid : Int}
    {pairs : List (Json × Json)}
    (hP : reg.getProject s = some project) (hpid : project.project_id = pid)
    (hFmt : formatGetTagImmutabilityList ((reg.getRules s).map renderRule)
      pid = some pairs)
    (hNe : pairs.map Prod.snd ≠
      createDesiredTagImmutabilityList p.tag_immutability_list pid)
    (hC : p.check_mode = true) :
    runTagImmutability reg s p =
      .exited (setChanges emptyResult (pairs.map Prod.snd)
        (createDesiredTagImmutabilityList p.tag_immutability_list pid))
        [] s := by
  subst hpid
  simp only [runTagImmutability, hP, hFmt, hC]
  rw [if_neg hNe]
  simp

theorem runTag_apply {σ : Type} (reg : TagRegistry σ) (s : σ)
    (p : TagImmutabilityParams) {project : HarborProject} {pid : Int}
    {pairs pairs2 : List (Json × Json)}
    (hP : reg.getProject s = some project) (hpid : project.project_id = pid)
    (hFmt : formatGetTagImmutabilityList ((reg.getRules s).map renderRule)
      pid = some pairs)
    (hNe : pairs.map Prod.snd ≠
      createDesiredTagImmutabilityList p.tag_immutability_list pid)
    (hC : p.check_mode = false)
    (hFmt2 : formatGetTagImmutabilityList
      ((reg.getRules ((tagDeleteIds (pairs.map Prod.fst)
          (tagDeleteKeys (pairs.map Prod.snd)
            (createDesiredTagImmutabilityList p.tag_immutability_list pid))).foldl
        reg.deleteRule
        ((tagToAdd (createDesiredTagImmutabilityList p.tag_immutability_list pid)
          (pairs.map Prod.snd)).foldl reg.postRule s))).map renderRule)
      pid = some pairs2) :
    runTagImmutability reg s p =
      (let desired := createDesiredTagImmutabilityList p.tag_immutability_list pid
       let before := pairs.map Prod.snd
       let to_add := tagToAdd desired before
       let del_ids := tagDeleteIds (pairs.map Prod.fst) (tagDeleteKeys before desired)
       let s2 := del_ids.foldl reg.deleteRule (to_add.foldl reg.postRule s)
       let after := pairs2.map Prod.snd
       .exited (if before ≠ after then setChanges emptyResult before after else emptyResult)
         (to_add.map MutCall.post ++ del_ids.map MutCall.delete) s2) := by
  subst hpid
  simp only [runTagImmutability, hP, hFmt, hC, hFmt2]
  rw [if_neg hNe]
  simp

/-! ## Second-run helpers for the idempotency analysis -/

theorem retentionEcho_getProject (s : RetentionEchoState) (h : s.has_project = true) :
    retentionEcho.getProject s = some ⟨s.project_id, s.retention.map Prod.fst⟩ := by
  simp [retentionEcho, h]

theorem retentionEcho_getPolicy (s : RetentionEchoState) {n : Nat} {b : Json}
    (h : s.retention = some (n, b)) :
    retentionEcho.getPolicy s n = b := by
  simp [retentionEcho, h]

/-- On the echo registry, a retention run whose stored policy already equals
the desired policy reports no change whatever the force flag: without force
it exits on the equality short-circuit, with force it re-writes the same
policy and the post-write comparison sees no difference. -/
theorem retention_secondRun_unchanged (s : RetentionEchoState) (p : RetentionParams)
    (n : Nat) (hC : p.check_mode = false) (hP : s.has_project = true)
    (hret : s.retention =
      some (n, createDesiredRetentionPolicy p.rules s.project_id p.schedule_cron)) :
    ∃ r2 c2 s2, runRetention retentionEcho s p = .exited r2 c2 s2 ∧ r2.changed = false := by
  have hgp : retentionEcho.getProject s = some ⟨s.project_id, some n⟩ := by
    rw [retentionEcho_getProject s hP, hret]
    rfl
  have hpol : retentionEcho.getPolicy s n =
      createDesiredRetentionPolicy p.rules s.project_id p.schedule_cron :=
    retentionEcho_getPolicy s hret
  cases hf : p.force with
  | false =>
    refine ⟨emptyResult, [], s, ?_, rfl⟩
    exact runRetention_noChange retentionEcho s p hgp rfl hf hpol
  | true =>
    have heq := runRetention_applyUpdate retentionEcho s p hgp rfl hC (Or.inl hf)
    have hafter : retentionEcho.getPolicy
        (retentionEcho.putPolicy s n
          (createDesiredRetentionPolicy p.rules s.project_id p.schedule_cron)) n =
        createDesiredRetentionPolicy p.rules s.project_id p.schedule_cron := by
      simp [retentionEcho]
    simp only [hpol, hafter, ne_eq, not_true_eq_false, ite_false, if_neg] at heq
    exact ⟨_, _, _, heq, rfl⟩

/-- On the echo registry, a scan-all run whose stored schedule already equals
the desired mapping exits on the equality short-circuit. -/
theorem scan_secondRun_unchanged (s : ScanEchoState) (p : ScanAllScheduleParams)
    (hsch : s.schedule = some (constructDesired p.schedule_cron p.sched_type)) :
    ∃ r2 c2 s2, runScanAllSchedule scanEcho s p = .exited r2 c2 s2 ∧ r2.changed = false := by
  have hcanon : getScheduleCanon (scanEcho.fetchSchedule s) =
      some (constructDesired p.schedule_cron p.sched_type) := by
    simp [scanEcho, hsch, getScheduleCanon, constructDesired, Json.lookup, lookupFields]
  exact ⟨emptyResult, [], s, runScan_noChange scanEcho s p hcanon rfl, rfl⟩

theorem tagEcho_getProject (s : TagEchoState) {pid : Int} (h : s.project = some pid) :
    tagEcho.getProject s = some ⟨pid, none⟩ := by
  simp [tagEcho, h]

/-- On the echo registry, a tag-immutability run whose canonical current list
and desired list contain exactly the same items (as sets) reports no change:
either the lists are equal and the run exits early, or the computed create
and delete sets are both empty, no call is issued, and the re-fetched state
equals the pre-write state. -/
theorem tag_secondRun_unchanged (s : TagEchoState) (p : TagImmutabilityParams)
    (pid : Int) (hC : p.check_mode = false) (hs : s.project = some pid)
    (hB : TagBodiesOk s.rules)
    (hsub : ∀ x ∈ s.rules.map (fun r => forceCompareFields r.2 pid),
      x ∈ createDesiredTagImmutabilityList p.tag_immutability_list pid)
    (hsup : ∀ d ∈ createDesiredTagImmutabilityList p.tag_immutability_list pid,
      d ∈ s.rules.map (fun r => forceCompareFields r.2 pid)) :
    ∃ r2 c2 s2, runTagImmutability tagEcho s p = .exited r2 c2 s2 ∧ r2.changed = false := by
  have hgp := tagEcho_getProject s hs
  have hpid : ({ project_id := pid, retention_id := none } : HarborProject).project_id = pid :=
    rfl
  have hFmt := @formatList_renderRule s.rules pid hB
  have hsnd : (s.rules.map (fun r => (Json.num r.1, forceCompareFields r.2 pid))).map
      Prod.snd = s.rules.map (fun r => forceCompareFields r.2 pid) := by
    rw [List.map_map]
    rfl
  by_cases hb : (s.rules.map (fun r => (Json.num r.1, forceCompareFields r.2 pid))).map
      Prod.snd = createDesiredTagImmutabilityList p.tag_immutability_list pid
  · exact ⟨emptyResult, [], s, runTag_noChange tagEcho s p hgp hpid hFmt hb, rfl⟩
  · have hta : tagToAdd (createDesiredTagImmutabilityList p.tag_immutability_list pid)
        ((s.rules.map (fun r => (Json.num r.1, forceCompareFields r.2 pid))).map Prod.snd) =
        [] := by
      rw [hsnd]
      refine List.filter_eq_nil_iff.mpr ?_
      intro d hd
      simp only [decide_eq_true_eq, not_not]
      exact hsup d hd
    have hdk : tagDeleteKeys
        ((s.rules.map (fun r => (Json.num r.1, forceCompareFields r.2 pid))).map Prod.snd)
        (createDesiredTagImmutabilityList p.tag_immutability_list pid) = [] := by
      rw [hsnd]
      refine List.filter_eq_nil_iff.mpr ?_
      intro i hi
      simp only [List.mem_range] at hi
      simp only [decide_eq_true_eq, not_not]
      rw [List.getD_eq_getElem _ _ hi]
      exact hsub _ (List.getElem_mem hi)
    have heq := runTag_apply tagEcho s p hgp hpid hFmt hb hC (by
        rw [hta, hdk]
        simp only [tagDeleteIds, List.map_nil, List.foldl_nil]
        exact hFmt)
    simp only [] at heq
    rw [hta, hdk] at heq
    simp only [tagDeleteIds, List.map_nil, List.foldl_nil,
      List.append_nil, ne_eq, not_true_eq_false, ite_false] at heq
    exact ⟨_, _, _, heq, rfl⟩


theorem map_pairfn_snd (l : List (Nat × Json)) (pid : Int) :
    (l.map (fun r => (Json.num r.1, forceCompareFields r.2 pid))).map Prod.snd =
      l.map (fun r => forceCompareFields r.2 pid) := by
  rw [List.map_map]
  rfl

theorem map_pairfn_fst (l : List (Nat × Json)) (pid : Int) :
    (l.map (fun r => (Json.num r.1, forceCompareFields r.2 pid))).map Prod.fst =
      l.map (fun r => Json.num r.1) := by
  rw [List.map_map]
  rfl

/-- On the echo registry, one apply-mode run of the tag-immutability module
with a non-equal canonical list issues its creates and deletes and leaves
exactly the structurally-retained rules plus the freshly created desired
items: the canonical view of the final rule store is
`before.filter (· ∈ desired) ++ to_add`. -/
theorem tag_apply_echo (s : TagEchoState) (p : TagImmutabilityParams) (pid : Int)
    (hC : p.check_mode = false) (hs : s.project = some pid)
    (hB : TagBodiesOk s.rules) (hI : TagIdsOk s.rules s.next_id)
    (hbne : s.rules.map (fun r => forceCompareFields r.2 pid) ≠ createDesiredTagImmutabilityList p.tag_immutability_list pid) :
    ∃ (s2 : TagEchoState) (calls : List MutCall),
      runTagImmutability tagEcho s p =
        .exited
          (if s.rules.map (fun r => forceCompareFields r.2 pid) ≠ s2.rules.map (fun r => forceCompareFields r.2 pid)
           then setChanges emptyResult (s.rules.map (fun r => forceCompareFields r.2 pid)) (s2.rules.map (fun r => forceCompareFields r.2 pid))
           else emptyResult) calls s2 ∧
      s2.project = s.project ∧
      TagBodiesOk s2.rules ∧
      s2.rules.map (fun r => forceCompareFields r.2 pid) =
        (s.rules.map (fun r => forceCompareFields r.2 pid)).filter (fun x => decide (x ∈ createDesiredTagImmutabilityList p.tag_immutability_list pid)) ++ tagToAdd (createDesiredTagImmutabilityList p.tag_immutability_list pid) (s.rules.map (fun r => forceCompareFields r.2 pid)) := by
  have hgp := tagEcho_getProject s hs
  have hpid : ({ project_id := pid, retention_id := none } : HarborProject).project_id =
      pid := rfl
  have hFmt := @formatList_renderRule s.rules pid hB
  have hsnd := map_pairfn_snd s.rules pid
  have hfst := map_pairfn_fst s.rules pid
  have hb : (s.rules.map (fun r => (Json.num r.1, forceCompareFields r.2 pid))).map
      Prod.snd ≠ createDesiredTagImmutabilityList p.tag_immutability_list pid := by
    rw [hsnd]
    exact hbne
  have hdel : tagDeleteIds (s.rules.map (fun r => Json.num r.1)) (tagDeleteKeys (s.rules.map (fun r => forceCompareFields r.2 pid)) (createDesiredTagImmutabilityList p.tag_immutability_list pid)) =
      (s.rules.filter (fun r => decide (forceCompareFields r.2 pid ∉ createDesiredTagImmutabilityList p.tag_immutability_list pid))).map (fun r => Json.num r.1) := by
    rw [tagDeleteIds_spec (s.rules.map (fun r => Json.num r.1)) (s.rules.map (fun r => forceCompareFields r.2 pid)) (createDesiredTagImmutabilityList p.tag_immutability_list pid) (by simp),
      List.zip_map', List.filter_map, List.map_map]
    rfl
  have hrules2 : ((tagDeleteIds (s.rules.map (fun r => Json.num r.1)) (tagDeleteKeys (s.rules.map (fun r => forceCompareFields r.2 pid)) (createDesiredTagImmutabilityList p.tag_immutability_list pid))).foldl tagEcho.deleteRule ((tagToAdd (createDesiredTagImmutabilityList p.tag_immutability_list pid) (s.rules.map (fun r => forceCompareFields r.2 pid))).foldl tagEcho.postRule s)).rules =
      s.rules.filter (fun r => decide (forceCompareFields r.2 pid ∈ createDesiredTagImmutabilityList p.tag_immutability_list pid)) ++
      (List.range' s.next_id (tagToAdd (createDesiredTagImmutabilityList p.tag_immutability_list pid) (s.rules.map (fun r => forceCompareFields r.2 pid))).length).zip (tagToAdd (createDesiredTagImmutabilityList p.tag_immutability_list pid) (s.rules.map (fun r => forceCompareFields r.2 pid))) := by
    rw [tagEcho_deleteAll_rules, tagEcho_postAll_rules, List.filter_append, hdel]
    congr 1
    · refine List.filter_congr ?_
      intro r hr
      by_cases hcr : forceCompareFields r.2 pid ∈ createDesiredTagImmutabilityList p.tag_immutability_list pid
      · have hnotin : Json.num r.1 ∉
            (s.rules.filter (fun r => decide (forceCompareFields r.2 pid ∉ createDesiredTagImmutabilityList p.tag_immutability_list pid))).map
              (fun r => Json.num r.1) := by
          intro hmem
          obtain ⟨r2, hr2mem, hr2eq⟩ := List.mem_map.mp hmem
          obtain ⟨hr2s, hr2p⟩ := List.mem_filter.mp hr2mem
          have hfst_eq : r2.1 = r.1 := by
            simp only [Json.num.injEq] at hr2eq
            exact_mod_cast hr2eq
          have hr2r : r2 = r := List.inj_on_of_nodup_map hI.1 hr2s hr hfst_eq
          rw [hr2r] at hr2p
          simp [hcr] at hr2p
        rw [decide_eq_true hnotin, decide_eq_true hcr]
      · have hin : Json.num r.1 ∈
            (s.rules.filter (fun r => decide (forceCompareFields r.2 pid ∉ createDesiredTagImmutabilityList p.tag_immutability_list pid))).map
              (fun r => Json.num r.1) :=
          List.mem_map.mpr ⟨r, List.mem_filter.mpr ⟨hr, by simp [hcr]⟩, rfl⟩
        rw [decide_eq_false (not_not_intro hin), decide_eq_false hcr]
    · refine List.filter_eq_self.mpr ?_
      intro a ha
      have hge : s.next_id ≤ a.1 := (List.mem_range'_1.mp (List.of_mem_zip ha).1).1
      simp only [decide_eq_true_eq]
      intro hmem
      obtain ⟨r2, hr2mem, hr2eq⟩ := List.mem_map.mp hmem
      have hfst_eq : r2.1 = a.1 := by
        simp only [Json.num.injEq] at hr2eq
        exact_mod_cast hr2eq
      have hlt := hI.2 r2 (List.mem_filter.mp hr2mem).1
      omega
  have hBodies2 : TagBodiesOk ((tagDeleteIds (s.rules.map (fun r => Json.num r.1)) (tagDeleteKeys (s.rules.map (fun r => forceCompareFields r.2 pid)) (createDesiredTagImmutabilityList p.tag_immutability_list pid))).foldl tagEcho.deleteRule ((tagToAdd (createDesiredTagImmutabilityList p.tag_immutability_list pid) (s.rules.map (fun r => forceCompareFields r.2 pid))).foldl tagEcho.postRule s)).rules := by
    rw [hrules2]
    intro r hr
    rcases List.mem_append.mp hr with hr1 | hr2
    · exact hB r (List.mem_filter.mp hr1).1
    · have hsnd2 : r.2 ∈ tagToAdd (createDesiredTagImmutabilityList p.tag_immutability_list pid) (s.rules.map (fun r => forceCompareFields r.2 pid)) := (List.of_mem_zip hr2).2
      have hD2 : r.2 ∈ createDesiredTagImmutabilityList p.tag_immutability_list pid := (List.mem_filter.mp hsnd2).1
      obtain ⟨o, _, ho⟩ := List.mem_map.mp hD2
      refine ⟨?_, ?_⟩
      · rw [← ho]
        exact ⟨_, rfl⟩
      · rw [← ho]
        exact createDesiredTagImmutability_hasKey_id o pid
  have hcanon2 : ((tagDeleteIds (s.rules.map (fun r => Json.num r.1)) (tagDeleteKeys (s.rules.map (fun r => forceCompareFields r.2 pid)) (createDesiredTagImmutabilityList p.tag_immutability_list pid))).foldl tagEcho.deleteRule ((tagToAdd (createDesiredTagImmutabilityList p.tag_immutability_list pid) (s.rules.map (fun r => forceCompareFields r.2 pid))).foldl tagEcho.postRule s)).rules.map (fun r => forceCompareFields r.2 pid) =
      (s.rules.map (fun r => forceCompareFields r.2 pid)).filter (fun x => decide (x ∈ createDesiredTagImmutabilityList p.tag_immutability_list pid)) ++ tagToAdd (createDesiredTagImmutabilityList p.tag_immutability_list pid) (s.rules.map (fun r => forceCompareFields r.2 pid)) := by
    rw [hrules2, List.map_append]
    congr 1
    · exact (List.filter_map
        (p := fun x => decide (x ∈ createDesiredTagImmutabilityList p.tag_immutability_list pid))
        (fun r => forceCompareFields r.2 pid) s.rules).symm
    · have hlen : (tagToAdd (createDesiredTagImmutabilityList p.tag_immutability_list pid) (s.rules.map (fun r => forceCompareFields r.2 pid))).length ≤ (List.range' s.next_id (tagToAdd (createDesiredTagImmutabilityList p.tag_immutability_list pid) (s.rules.map (fun r => forceCompareFields r.2 pid))).length).length := by simp
      show ((List.range' s.next_id (tagToAdd (createDesiredTagImmutabilityList p.tag_immutability_list pid) (s.rules.map (fun r => forceCompareFields r.2 pid))).length).zip (tagToAdd (createDesiredTagImmutabilityList p.tag_immutability_list pid) (s.rules.map (fun r => forceCompareFields r.2 pid)))).map
        ((fun b => forceCompareFields b pid) ∘ Prod.snd) = tagToAdd (createDesiredTagImmutabilityList p.tag_immutability_list pid) (s.rules.map (fun r => forceCompareFields r.2 pid))
      rw [← List.map_map, List.map_snd_zip _ _ hlen]
      have hid : ∀ d ∈ tagToAdd (createDesiredTagImmutabilityList p.tag_immutability_list pid) (s.rules.map (fun r => forceCompareFields r.2 pid)), forceCompareFields d pid = d := by
        intro d hd
        have hdD : d ∈ createDesiredTagImmutabilityList p.tag_immutability_list pid := (List.mem_filter.mp hd).1
        obtain ⟨o, _, ho⟩ := List.mem_map.mp hdD
        rw [← ho]
        exact forceCompareFields_createDesired o pid
      rw [List.map_congr_left hid, List.map_id']
  have hproj2 : ((tagDeleteIds (s.rules.map (fun r => Json.num r.1)) (tagDeleteKeys (s.rules.map (fun r => forceCompareFields r.2 pid)) (createDesiredTagImmutabilityList p.tag_immutability_list pid))).foldl tagEcho.deleteRule ((tagToAdd (createDesiredTagImmutabilityList p.tag_immutability_list pid) (s.rules.map (fun r => forceCompareFields r.2 pid))).foldl tagEcho.postRule s)).project = s.project := by
    rw [tagEcho_deleteAll_project, tagEcho_postAll_project]
  have heq := runTag_apply tagEcho s p hgp hpid hFmt hb hC (by
      rw [hsnd, hfst]
      exact @formatList_renderRule _ pid hBodies2)
  simp only [] at heq
  rw [hsnd, hfst] at heq
  rw [map_pairfn_snd] at heq
  exact ⟨_, _, heq, hproj2, hBodies2, hcanon2⟩

/-- On the echo registry a retention run, however it exits, leaves a state
from which an immediate re-run with the same parameters reports
`changed = false`; and a run whose stored policy differs structurally from
the desired one (or that must create the policy) reports `changed = true`. -/
theorem retention_idempotent (s : RetentionEchoState) (p : RetentionParams)
    (hC : p.check_mode = false) (hP : s.has_project = true) :
    (∀ r1 c1 s1, runRetention retentionEcho s p = .exited r1 c1 s1 →
      ∃ r2 c2 s2, runRetention retentionEcho s1 p = .exited r2 c2 s2 ∧ r2.changed = false) ∧
    ((s.retention = none ∨ ∃ n b, s.retention = some (n, b) ∧
        b ≠ createDesiredRetentionPolicy p.rules s.project_id p.schedule_cron) →
      ∃ r1 c1 s1, runRetention retentionEcho s p = .exited r1 c1 s1 ∧ r1.changed = true) := by
  have hgp0 := retentionEcho_getProject s hP
  cases hret : s.retention with
  | none =>
    have hgp : retentionEcho.getProject s = some ⟨s.project_id, none⟩ := by
      rw [hgp0, hret]
      rfl
    have hP2 : retentionEcho.getProject (retentionEcho.postPolicy s
        (createDesiredRetentionPolicy p.rules s.project_id p.schedule_cron)) =
        some ⟨s.project_id, some s.next_id⟩ := by
      simp [retentionEcho, hP]
    have heq := runRetention_applyCreate retentionEcho s p hgp rfl hC hP2 rfl
    simp only [] at heq
    constructor
    · intro r1 c1 s1 hrun
      rw [heq] at hrun
      injection hrun with h1 h2 h3
      subst h3
      exact retention_secondRun_unchanged _ p s.next_id hC hP rfl
    · intro _
      exact ⟨_, _, _, heq, rfl⟩
  | some nb =>
    obtain ⟨n, b⟩ := nb
    have hgp : retentionEcho.getProject s = some ⟨s.project_id, some n⟩ := by
      rw [hgp0, hret]
      rfl
    have hpol : retentionEcho.getPolicy s n = b := retentionEcho_getPolicy s hret
    by_cases hbd : b = createDesiredRetentionPolicy p.rules s.project_id p.schedule_cron
    · constructor
      · intro r1 c1 s1 hrun
        cases hf : p.force with
        | false =>
          have heq := runRetention_noChange retentionEcho s p hgp rfl hf
            (by rw [hpol, hbd])
          rw [heq] at hrun
          injection hrun with h1 h2 h3
          subst h3
          exact retention_secondRun_unchanged s p n hC hP (by rw [hret, hbd])
        | true =>
          have heq := runRetention_applyUpdate retentionEcho s p hgp rfl hC (Or.inl hf)
          simp only [] at heq
          rw [heq] at hrun
          injection hrun with h1 h2 h3
          subst h3
          exact retention_secondRun_unchanged _ p n hC hP rfl
      · intro hdelta
        rcases hdelta with h | ⟨n2, b2, hsome, hne⟩
        · exact absurd h (by simp)
        · injection hsome with hpair
          injection hpair with he1 he2
          rw [← he2] at hne
          exact absurd hbd hne
    · have hNe : p.force = true ∨ retentionEcho.getPolicy s n ≠
          createDesiredRetentionPolicy p.rules s.project_id p.schedule_cron :=
        Or.inr (by rw [hpol]; exact hbd)
      have hafter : retentionEcho.getPolicy (retentionEcho.putPolicy s n
          (createDesiredRetentionPolicy p.rules s.project_id p.schedule_cron)) n =
          createDesiredRetentionPolicy p.rules s.project_id p.schedule_cron := by
        simp [retentionEcho]
      have heq := runRetention_applyUpdate retentionEcho s p hgp rfl hC hNe
      simp only [] at heq
      rw [hpol, hafter] at heq
      rw [if_pos hbd] at heq
      constructor
      · intro r1 c1 s1 hrun
        rw [heq] at hrun
        injection hrun with h1 h2 h3
        subst h3
        exact retention_secondRun_unchanged _ p n hC hP rfl
      · intro _
        exact ⟨_, _, _, heq, rfl⟩

/-- On the echo registry a scan-all run, however it exits, leaves a state
from which a re-run reports `changed = false`; and a run with unequal
canonical schedules reports `changed = true`. -/
theorem scan_idempotent (s : ScanEchoState) (p : ScanAllScheduleParams)
    (hC : p.check_mode = false) :
    (∀ r1 c1 s1, runScanAllSchedule scanEcho s p = .exited r1 c1 s1 →
      ∃ r2 c2 s2, runScanAllSchedule scanEcho s1 p = .exited r2 c2 s2 ∧ r2.changed = false) ∧
    (∀ before, getScheduleCanon s.schedule = some before →
      constructDesired p.schedule_cron p.sched_type ≠ before →
      ∃ r1 c1 s1, runScanAllSchedule scanEcho s p = .exited r1 c1 s1 ∧ r1.changed = true) := by
  have hafter : getScheduleCanon (scanEcho.fetchSchedule (scanEcho.putSchedule s
      (constructDesired p.schedule_cron p.sched_type))) =
      some (constructDesired p.schedule_cron p.sched_type) := by
    simp [scanEcho, getScheduleCanon, constructDesired, Json.lookup, lookupFields]
  constructor
  · intro r1 c1 s1 hrun
    cases hcanon : getScheduleCanon (scanEcho.fetchSchedule s) with
    | none =>
      rw [runScan_crash scanEcho s p hcanon] at hrun
      exact Outcome.noConfusion hrun
    | some before =>
      by_cases hd : constructDesired p.schedule_cron p.sched_type = before
      · rw [runScan_noChange scanEcho s p hcanon hd] at hrun
        injection hrun with h1 h2 h3
        subst h3
        exact ⟨emptyResult, [], s, runScan_noChange scanEcho s p hcanon hd, rfl⟩
      · rw [runScan_apply scanEcho s p hcanon hd hC hafter] at hrun
        injection hrun with h1 h2 h3
        subst h3
        exact scan_secondRun_unchanged _ p rfl
  · intro before hcanon hne
    exact ⟨_, _, _, runScan_apply scanEcho s p hcanon hne hC hafter, rfl⟩

/-- On the echo registry a tag-immutability run (with well-formed stored
rules), however it exits, leaves a state from which a re-run reports
`changed = false`; and a run whose create or delete set is non-empty
reports `changed = true`. -/
theorem tag_idempotent (s : TagEchoState) (p : TagImmutabilityParams) (pid : Int)
    (hC : p.check_mode = false) (hs : s.project = some pid)
    (hB : TagBodiesOk s.rules) (hI : TagIdsOk s.rules s.next_id) :
    (∀ r1 c1 s1, runTagImmutability tagEcho s p = .exited r1 c1 s1 →
      ∃ r2 c2 s2, runTagImmutability tagEcho s1 p = .exited r2 c2 s2 ∧ r2.changed = false) ∧
    ((tagToAdd (createDesiredTagImmutabilityList p.tag_immutability_list pid)
        (s.rules.map (fun r => forceCompareFields r.2 pid)) ≠ [] ∨
      tagDeleteKeys (s.rules.map (fun r => forceCompareFields r.2 pid))
        (createDesiredTagImmutabilityList p.tag_immutability_list pid) ≠ []) →
      ∃ r1 c1 s1, runTagImmutability tagEcho s p = .exited r1 c1 s1 ∧ r1.changed = true) := by
  by_cases hbeq : s.rules.map (fun r => forceCompareFields r.2 pid) =
      createDesiredTagImmutabilityList p.tag_immutability_list pid
  · have hgp := tagEcho_getProject s hs
    have hpid : ({ project_id := pid, retention_id := none } : HarborProject).project_id =
        pid := rfl
    have hFmt := @formatList_renderRule s.rules pid hB
    have heq := runTag_noChange tagEcho s p hgp hpid hFmt
      (by rw [map_pairfn_snd]; exact hbeq)
    constructor
    · intro r1 c1 s1 hrun
      rw [heq] at hrun
      injection hrun with h1 h2 h3
      subst h3
      exact ⟨_, _, _, heq, rfl⟩
    · intro hdelta
      rcases hdelta with h | h
      · refine absurd (List.filter_eq_nil_iff.mpr ?_) h
        intro d hd
        simp only [decide_eq_true_eq, not_not]
        rw [hbeq]
        exact hd
      · refine absurd (List.filter_eq_nil_iff.mpr ?_) h
        intro i hi
        simp only [List.mem_range] at hi
        simp only [decide_eq_true_eq, not_not]
        rw [List.getD_eq_getElem _ _ hi, ← hbeq]
        exact List.getElem_mem hi
  · obtain ⟨s2, calls, heq, hproj2, hB2, hcanon2⟩ := tag_apply_echo s p pid hC hs hB hI hbeq
    have hsub2 : ∀ x ∈ s2.rules.map (fun r => forceCompareFields r.2 pid),
        x ∈ createDesiredTagImmutabilityList p.tag_immutability_list pid := by
      rw [hcanon2]
      intro x hx
      rcases List.mem_append.mp hx with h1 | h2
      · have := (List.mem_filter.mp h1).2
        simpa using this
      · exact (List.mem_filter.mp h2).1
    have hsup2 : ∀ d ∈ createDesiredTagImmutabilityList p.tag_immutability_list pid,
        d ∈ s2.rules.map (fun r => forceCompareFields r.2 pid) := by
      rw [hcanon2]
      intro d hd
      by_cases hdb : d ∈ s.rules.map (fun r => forceCompareFields r.2 pid)
      · exact List.mem_append_left _ (List.mem_filter.mpr ⟨hdb, by simp [hd]⟩)
      · exact List.mem_append_right _ (List.mem_filter.mpr ⟨hd, by simp [hdb]⟩)
    constructor
    · intro r1 c1 s1 hrun
      rw [heq] at hrun
      injection hrun with h1 h2 h3
      subst h3
      exact tag_secondRun_unchanged s2 p pid hC (by rw [hproj2]; exact hs) hB2 hsub2 hsup2
    · intro hdelta
      refine ⟨_, _, _, heq, ?_⟩
      have hne : s.rules.map (fun r => forceCompareFields r.2 pid) ≠
          s2.rules.map (fun r => forceCompareFields r.2 pid) := by
        rw [hcanon2]
        rcases hdelta with h | h
        · obtain ⟨d, hd⟩ := List.exists_mem_of_ne_nil _ h
          have hdnb : d ∉ s.rules.map (fun r => forceCompareFields r.2 pid) := by
            have := (List.mem_filter.mp hd).2
            simpa using this
          intro hcontra
          apply hdnb
          rw [hcontra]
          exact List.mem_append_right _ hd
        · obtain ⟨i, hi⟩ := List.exists_mem_of_ne_nil _ h
          obtain ⟨hirange, hipred⟩ := List.mem_filter.mp hi
          simp only [List.mem_range] at hirange
          simp only [decide_eq_true_eq] at hipred
          rw [List.getD_eq_getElem _ _ hirange] at hipred
          intro hcontra
          obtain ⟨c, hc_mem, hcD⟩ :
              ∃ c, c ∈ s.rules.map (fun r => forceCompareFields r.2 pid) ∧
                c ∉ createDesiredTagImmutabilityList p.tag_immutability_list pid :=
            ⟨_, List.getElem_mem hirange, hipred⟩
          rw [hcontra] at hc_mem
          rcases List.mem_append.mp hc_mem with h1 | h2
          · exact hcD (by simpa using (List.mem_filter.mp h1).2)
          · exact hcD (List.mem_filter.mp h2).1
      simp only [ne_eq, hne, not_false_eq_true, ite_true]
      rfl

/-! ## Claims -/

/-- C1: For every resource kind (retention policy, scan-all schedule,
tag-immutability rule set), running the reconciler twice in immediate
succession with identical desired input in apply mode against a faithful
(echoing) registry yields `changed = true` on a first run that found a
non-empty delta, and always `changed = false` on the second run, whatever
the first run did. -/
theorem reconciler_second_run_unchanged :
    (∀ (s : RetentionEchoState) (p : RetentionParams),
      p.check_mode = false → s.has_project = true →
      (∀ r1 c1 s1, runRetention retentionEcho s p = .exited r1 c1 s1 →
        ∃ r2 c2 s2, runRetention retentionEcho s1 p = .exited r2 c2 s2 ∧
          r2.changed = false) ∧
      ((s.retention = none ∨ ∃ n b, s.retention = some (n, b) ∧
          b ≠ createDesiredRetentionPolicy p.rules s.project_id p.schedule_cron) →
        ∃ r1 c1 s1, runRetention retentionEcho s p = .exited r1 c1 s1 ∧
          r1.changed = true)) ∧
    (∀ (s : ScanEchoState) (p : ScanAllScheduleParams),
      p.check_mode = false →
      (∀ r1 c1 s1, runScanAllSchedule scanEcho s p = .exited r1 c1 s1 →
        ∃ r2 c2 s2, runScanAllSchedule scanEcho s1 p = .exited r2 c2 s2 ∧
          r2.changed = false) ∧
      (∀ before, getScheduleCanon s.schedule = some before →
        constructDesired p.schedule_cron p.sched_type ≠ before →
        ∃ r1 c1 s1, runScanAllSchedule scanEcho s p = .exited r1 c1 s1 ∧
          r1.changed = true)) ∧
    (∀ (s : TagEchoState) (p : TagImmutabilityParams) (pid : Int),
      p.check_mode = false → s.project = some pid →
      TagBodiesOk s.rules → TagIdsOk s.rules s.next_id →
      (∀ r1 c1 s1, runTagImmutability tagEcho s p = .exited r1 c1 s1 →
        ∃ r2 c2 s2, runTagImmutability tagEcho s1 p = .exited r2 c2 s2 ∧
          r2.changed = false) ∧
      ((tagToAdd (createDesiredTagImmutabilityList p.tag_immutability_list pid)
          (s.rules.map (fun r => forceCompareFields r.2 pid)) ≠ [] ∨
        tagDeleteKeys (s.rules.map (fun r => forceCompareFields r.2 pid))
          (createDesiredTagImmutabilityList p.tag_immutability_list pid) ≠ []) →
        ∃ r1 c1 s1, runTagImmutability tagEcho s p = .exited r1 c1 s1 ∧
          r1.changed = true)) :=
  ⟨retention_idempotent, scan_idempotent, tag_idempotent⟩

/-- Witness for C1: concrete double runs of all three reconcilers. -/
theorem reconciler_second_run_unchanged_witness :
    (∃ r1 c1 s1, runRetention retentionEcho ⟨true, 1, none, 5⟩
        ⟨[Json.str "r"], "0 0 0 * * 0", false, false⟩ = .exited r1 c1 s1 ∧
        r1.changed = true) ∧
    (∃ r2 c2 s2, runRetention retentionEcho
        ⟨true, 1, some (5, createDesiredRetentionPolicy [Json.str "r"] 1 "0 0 0 * * 0"), 6⟩
        ⟨[Json.str "r"], "0 0 0 * * 0", false, false⟩ = .exited r2 c2 s2 ∧
        r2.changed = false) ∧
    (∃ r1 c1 s1, runScanAllSchedule scanEcho ⟨none⟩ ⟨"0 0 0 * * 0", "Custom", false⟩ =
        .exited r1 c1 s1 ∧ r1.changed = true) ∧
    (∃ r2 c2 s2, runScanAllSchedule scanEcho
        ⟨some (constructDesired "0 0 0 * * 0" "Custom")⟩ ⟨"0 0 0 * * 0", "Custom", false⟩ =
        .exited r2 c2 s2 ∧ r2.changed = false) ∧
    (∃ r1 c1 s1, runTagImmutability tagEcho ⟨some 1, [], 0⟩
        ⟨[⟨"repoMatches", "**", "matches", "t"⟩], false⟩ = .exited r1 c1 s1 ∧
        r1.changed = true) ∧
    (∃ r2 c2 s2, runTagImmutability tagEcho
        ⟨some 1, [(0, createDesiredTagImmutability ⟨"repoMatches", "**", "matches", "t"⟩ 1)], 1⟩
        ⟨[⟨"repoMatches", "**", "matches", "t"⟩], false⟩ = .exited r2 c2 s2 ∧
        r2.changed = false) := by
  refine ⟨?_, ?_, ?_, ?_, ?_, ?_⟩
  · exact (reconciler_second_run_unchanged.1 _ _ rfl rfl).2 (Or.inl rfl)
  · exact (reconciler_second_run_unchanged.1 ⟨true, 1, none, 5⟩
      ⟨[Json.str "r"], "0 0 0 * * 0", false, false⟩ rfl rfl).1
      { changed := true, diff := none,
        retention_policy := some (createDesiredRetentionPolicy [Json.str "r"] 1 "0 0 0 * * 0") }
      [.post (createDesiredRetentionPolicy [Json.str "r"] 1 "0 0 0 * * 0")] _ (by decide)
  · exact (reconciler_second_run_unchanged.2.1 _ _ rfl).2 (.obj []) rfl (by decide)
  · exact (reconciler_second_run_unchanged.2.1 ⟨none⟩ ⟨"0 0 0 * * 0", "Custom", false⟩
      rfl).1
      { changed := true,
        diff := some (.obj [], constructDesired "0 0 0 * * 0" "Custom"),
        retention_policy := none }
      [.put (constructDesired "0 0 0 * * 0" "Custom")] _ (by decide)
  · exact (reconciler_second_run_unchanged.2.2 _ _ 1 rfl rfl
      (by intro r hr; simp at hr) ⟨by simp, by intro r hr; simp at hr⟩).2
      (Or.inl (by decide))
  · exact (reconciler_second_run_unchanged.2.2 ⟨some 1, [], 0⟩
      ⟨[⟨"repoMatches", "**", "matches", "t"⟩], false⟩ 1 rfl rfl
      (by intro r hr; simp at hr) ⟨by simp, by intro r hr; simp at hr⟩).1
      { changed := true,
        diff := some ([], [createDesiredTagImmutability ⟨"repoMatches", "**", "matches", "t"⟩ 1]),
        retention_policy := none }
      [.post (createDesiredTagImmutability ⟨"repoMatches", "**", "matches", "t"⟩ 1)] _
      (by decide)

/-- C2: The tag-immutability differ computes `to_create` as exactly the
items of the desired list `B` not structurally present in the current list
`A`, computes the delete list as exactly the retained server identifiers of
the items of `A` not structurally present in `B`, and `(A` minus the
deleted items`)` together with `to_create` is set-equal to `B`.  Comparison
is by full structural equality of the canonical items; the identifier list
plays no role in the comparisons. -/
theorem tag_differ_set_correct (A B ids : List Json) (h : ids.length = A.length) :
    (∀ x, x ∈ tagToAdd B A ↔ (x ∈ B ∧ x ∉ A)) ∧
    tagDeleteIds ids (tagDeleteKeys A B) =
      ((ids.zip A).filter (fun x => decide (x.2 ∉ B))).map Prod.fst ∧
    (∀ x, x ∈ A.filter (fun a => decide (a ∈ B)) ++ tagToAdd B A ↔ x ∈ B) := by
  refine ⟨?_, tagDeleteIds_spec ids A B h, ?_⟩
  · intro x
    simp [tagToAdd, List.mem_filter]
  · intro x
    simp only [List.mem_append, List.mem_filter, tagToAdd, decide_eq_true_eq]
    constructor
    · rintro (⟨_, hb⟩ | hx)
      · exact hb
      · exact hx.1
    · intro hb
      by_cases ha : x ∈ A
      · exact Or.inl ⟨ha, hb⟩
      · exact Or.inr ⟨hb, ha⟩

/-- Witness for C2: the differ on current `[a]` (id 5), desired `[b]`. -/
theorem tag_differ_set_correct_witness :
    (Json.str "b" ∈ tagToAdd [Json.str "b"] [Json.str "a"] ↔
      (Json.str "b" ∈ [Json.str "b"] ∧ Json.str "b" ∉ [Json.str "a"])) ∧
    tagDeleteIds [Json.num 5] (tagDeleteKeys [Json.str "a"] [Json.str "b"]) =
      (([Json.num 5].zip [Json.str "a"]).filter
        (fun x => decide (x.2 ∉ [Json.str "b"]))).map Prod.fst ∧
    (Json.str "b" ∈
        ([Json.str "a"].filter (fun a => decide (a ∈ [Json.str "b"])) ++
          tagToAdd [Json.str "b"] [Json.str "a"]) ↔
      Json.str "b" ∈ [Json.str "b"]) := by
  refine ⟨?_, ?_, ?_⟩
  · exact (tag_differ_set_correct [Json.str "a"] [Json.str "b"] [Json.num 5]
      (by decide)).1 (Json.str "b")
  · exact (tag_differ_set_correct [Json.str "a"] [Json.str "b"] [Json.num 5]
      (by decide)).2.1
  · exact (tag_differ_set_correct [Json.str "a"] [Json.str "b"] [Json.num 5]
      (by decide)).2.2 (Json.str "b")

/-- C5, counterexample: the scan-all schedule fetch performs no status
check, so a 500 response whose body carries a `schedule` key is processed
as current state instead of aborting with a classified error.  The claim
that every read GET treats a non-2xx status as fatal is therefore false. -/
theorem scan_get_processes_non2xx :
    getSchedule { status := 500, content_length := 7,
                  body := .obj [("schedule", .obj [("cron", .str "0 0 0 * * 0")])] } =
      some (.obj [("schedule", .obj [("cron", .str "0 0 0 * * 0")])]) := by
  decide

/-- C5, amended: the retention-policy and tag-immutability-list fetches
abort immediately with the classified message on any non-200 status,
without touching the body; the scan-all schedule fetch ignores the status
entirely and processes whatever non-empty body it received. -/
theorem read_error_handling_amended :
    (∀ resp : HttpResponse, resp.status ≠ 200 →
      getRetentionPolicy resp = .error (requestParse resp)) ∧
    (∀ resp : HttpResponse, resp.status ≠ 200 →
      getTagImmutabilityList resp = .error (requestParse resp)) ∧
    (∀ resp : HttpResponse, resp.content_length ≠ 0 →
      getSchedule resp =
        (resp.body.lookup "schedule").map (fun x => Json.obj [("schedule", x)])) := by
  refine ⟨?_, ?_, ?_⟩
  · intro resp h
    simp [getRetentionPolicy, h]
  · intro resp h
    simp [getTagImmutabilityList, h]
  · intro resp h
    simp [getSchedule, h]

/-- Witness for the amended C5 at a concrete 500 response. -/
theorem read_error_handling_amended_witness :
    getRetentionPolicy ⟨500, 3, .obj []⟩ = .error (requestParse ⟨500, 3, .obj []⟩) ∧
    getTagImmutabilityList ⟨500, 3, .obj []⟩ = .error (requestParse ⟨500, 3, .obj []⟩) ∧
    getSchedule ⟨500, 3, .obj []⟩ =
      ((Json.obj []).lookup "schedule").map (fun x => Json.obj [("schedule", x)]) :=
  ⟨read_error_handling_amended.1 _ (by decide),
   read_error_handling_amended.2.1 _ (by decide),
   read_error_handling_amended.2.2 _ (by decide)⟩

/-- C6: when the referenced project does not exist, both the retention and
the tag-immutability module reach
`fail_json(msg="Project not found", **self.self.result)`, whose argument
`self.self.result` raises an `AttributeError` before `fail_json` runs, so
the fixed message is never surfaced: the run dies with an unhandled
exception instead. -/
theorem project_not_found_crashes :
    (∀ (σ : Type) (reg : RetentionRegistry σ) (s : σ) (p : RetentionParams),
      reg.getProject s = none →
        runRetention reg s p = .crashed attrErrorSelfSelf [] s) ∧
    (∀ (σ : Type) (reg : TagRegistry σ) (s : σ) (p : TagImmutabilityParams),
      reg.getProject s = none →
        runTagImmutability reg s p = .crashed attrErrorSelfSelf [] s) ∧
    attrErrorSelfSelf ≠ projectNotFoundMsg := by
  refine ⟨?_, ?_, by decide⟩
  · intro σ reg s p h
    exact runRetention_noProject reg s p h
  · intro σ reg s p h
    exact runTag_noProject reg s p h

/-- Witness for C6 at concrete registries without the project. -/
theorem project_not_found_crashes_witness :
    runRetention retentionEcho ⟨false, 1, none, 0⟩ ⟨[], "c", false, false⟩ =
      .crashed attrErrorSelfSelf [] ⟨false, 1, none, 0⟩ ∧
    runTagImmutability tagEcho ⟨none, [], 0⟩ ⟨[], false⟩ =
      .crashed attrErrorSelfSelf [] ⟨none, [], 0⟩ :=
  ⟨project_not_found_crashes.1 _ retentionEcho _ _ (by decide),
   project_not_found_crashes.2.1 _ tagEcho _ _ (by decide)⟩

/-- C9: a 200 response with zero content length canonicalizes to the empty
mapping, the empty mapping differs from every configured desired schedule
`{schedule: {cron, type}}` (`type` defaulting to `"Custom"`), and on the
echo registry a run from the unconfigured state always takes the write
path, issuing the PUT of the desired schedule. -/
theorem empty_schedule_forces_creation :
    (∀ body : Json,
      getSchedule { status := 200, content_length := 0, body := body } =
        some (.obj [])) ∧
    scanAllTypeDefault = "Custom" ∧
    (∀ cron ty : String, constructDesired cron ty ≠ .obj []) ∧
    (∀ (p : ScanAllScheduleParams) (s : ScanEchoState),
      s.schedule = none → p.check_mode = false →
      runScanAllSchedule scanEcho s p =
        .exited (setChanges emptyResult (.obj [])
            (constructDesired p.schedule_cron p.sched_type))
          [.put (constructDesired p.schedule_cron p.sched_type)]
          ⟨some (constructDesired p.schedule_cron p.sched_type)⟩) := by
  refine ⟨?_, rfl, ?_, ?_⟩
  · intro body
    simp [getSchedule]
  · intro cron ty
    simp [constructDesired]
  · intro p s hs hc
    have hcanon : getScheduleCanon (scanEcho.fetchSchedule s) = some (.obj []) := by
      simp [scanEcho, hs, getScheduleCanon]
    have hafter : getScheduleCanon (scanEcho.fetchSchedule (scanEcho.putSchedule s
        (constructDesired p.schedule_cron p.sched_type))) =
        some (constructDesired p.schedule_cron p.sched_type) := by
      simp [scanEcho, getScheduleCanon, constructDesired, Json.lookup, lookupFields]
    exact runScan_apply scanEcho s p hcanon (by simp [constructDesired]) hc hafter

/-- Witness for C9 at a concrete empty-schedule state. -/
theorem empty_schedule_forces_creation_witness :
    getSchedule { status := 200, content_length := 0, body := .null } = some (.obj []) ∧
    constructDesired "0 0 0 * * 0" "Custom" ≠ .obj [] ∧
    runScanAllSchedule scanEcho ⟨none⟩ ⟨"0 0 0 * * 0", "Custom", false⟩ =
      .exited (setChanges emptyResult (.obj [])
          (constructDesired "0 0 0 * * 0" "Custom"))
        [.put (constructDesired "0 0 0 * * 0" "Custom")]
        ⟨some (constructDesired "0 0 0 * * 0" "Custom")⟩ :=
  ⟨empty_schedule_forces_creation.1 .null,
   empty_schedule_forces_creation.2.2.1 "0 0 0 * * 0" "Custom",
   empty_schedule_forces_creation.2.2.2 ⟨"0 0 0 * * 0", "Custom", false⟩ ⟨none⟩ rfl rfl⟩

/-! ## Issued-calls accounting -/

theorem runRetention_check_callsOf {σ : Type} (reg : RetentionRegistry σ) (s : σ)
    (p : RetentionParams) (hC : p.check_mode = true) :
    (runRetention reg s p).callsOf = [] := by
  cases hP : reg.getProject s with
  | none => rw [runRetention_noProject reg s p hP]; rfl
  | some project =>
    cases hR : project.retention_id with
    | none => rw [runRetention_checkCreate reg s p hP hR hC]; rfl
    | some rid =>
      by_cases hcond : p.force = false ∧ reg.getPolicy s rid =
          createDesiredRetentionPolicy p.rules project.project_id p.schedule_cron
      · rw [runRetention_noChange reg s p hP hR hcond.1 hcond.2]; rfl
      · have hNe : p.force = true ∨ reg.getPolicy s rid ≠
            createDesiredRetentionPolicy p.rules project.project_id p.schedule_cron := by
          cases hf : p.force with
          | false => exact Or.inr (fun he => hcond ⟨hf, he⟩)
          | true => exact Or.inl rfl
        rw [runRetention_checkUpdate reg s p hP hR hC hNe]; rfl

theorem runRetention_createApply_callsOf {σ : Type} (reg : RetentionRegistry σ) (s : σ)
    (p : RetentionParams) {project : HarborProject}
    (hP : reg.getProject s = some project) (hR : project.retention_id = none)
    (hC : p.check_mode = false) :
    (runRetention reg s p).callsOf =
      [.post (createDesiredRetentionPolicy p.rules project.project_id p.schedule_cron)] := by
  cases hP2 : reg.getProject (reg.postPolicy s
      (createDesiredRetentionPolicy p.rules project.project_id p.schedule_cron)) with
  | none => simp [runRetention, hP, hR, hC, hP2, Outcome.callsOf]
  | some project2 =>
    cases hR2 : project2.retention_id with
    | none => simp [runRetention, hP, hR, hC, hP2, hR2, Outcome.callsOf]
    | some rid2 => simp [runRetention, hP, hR, hC, hP2, hR2, Outcome.callsOf]

theorem runScan_check_callsOf {σ : Type} (reg : ScanRegistry σ) (s : σ)
    (p : ScanAllScheduleParams) (hC : p.check_mode = true) :
    (runScanAllSchedule reg s p).callsOf = [] := by
  cases hcanon : getScheduleCanon (reg.fetchSchedule s) with
  | none => rw [runScan_crash reg s p hcanon]; rfl
  | some before =>
    by_cases hd : constructDesired p.schedule_cron p.sched_type = before
    · rw [runScan_noChange reg s p hcanon hd]; rfl
    · rw [runScan_check reg s p hcanon hd hC]; rfl

theorem runTag_check_callsOf {σ : Type} (reg : TagRegistry σ) (s : σ)
    (p : TagImmutabilityParams) (hC : p.check_mode = true) :
    (runTagImmutability reg s p).callsOf = [] := by
  cases hP : reg.getProject s with
  | none => rw [runTag_noProject reg s p hP]; rfl
  | some project =>
    cases hFmt : formatGetTagImmutabilityList ((reg.getRules s).map renderRule)
        project.project_id with
    | none => simp [runTagImmutability, hP, hFmt, Outcome.callsOf]
    | some pairs =>
      by_cases hd : pairs.map Prod.snd =
          createDesiredTagImmutabilityList p.tag_immutability_list project.project_id
      · rw [runTag_noChange reg s p hP rfl hFmt hd]; rfl
      · rw [runTag_check reg s p hP rfl hFmt hd hC]; rfl

theorem runTag_apply_callsOf {σ : Type} (reg : TagRegistry σ) (s : σ)
    (p : TagImmutabilityParams) {project : HarborProject} {pairs : List (Json × Json)}
    (hP : reg.getProject s = some project)
    (hFmt : formatGetTagImmutabilityList ((reg.getRules s).map renderRule)
      project.project_id = some pairs)
    (hNe : pairs.map Prod.snd ≠
      createDesiredTagImmutabilityList p.tag_immutability_list project.project_id)
    (hC : p.check_mode = false) :
    (runTagImmutability reg s p).callsOf =
      (tagToAdd (createDesiredTagImmutabilityList p.tag_immutability_list
          project.project_id) (pairs.map Prod.snd)).map MutCall.post ++
        (tagDeleteIds (pairs.map Prod.fst)
          (tagDeleteKeys (pairs.map Prod.snd)
            (createDesiredTagImmutabilityList p.tag_immutability_list
              project.project_id))).map MutCall.delete := by
  cases hFmt2 : formatGetTagImmutabilityList
      ((reg.getRules ((tagDeleteIds (pairs.map Prod.fst)
          (tagDeleteKeys (pairs.map Prod.snd)
            (createDesiredTagImmutabilityList p.tag_immutability_list
              project.project_id))).foldl
        reg.deleteRule
        ((tagToAdd (createDesiredTagImmutabilityList p.tag_immutability_list
            project.project_id)
          (pairs.map Prod.snd)).foldl reg.postRule s))).map renderRule)
      project.project_id with
  | none => simp [runTagImmutability, hP, hFmt, hC, hFmt2, hNe, Outcome.callsOf]
  | some pairs2 =>
    rw [runTag_apply reg s p hP rfl hFmt hNe hC hFmt2]
    rfl

/-- C3: with the check-mode flag set no reconciler issues any POST, PUT or
DELETE; the run only records the preview (the before/desired diff via
`setChanges`, or the desired policy on the retention creation path) and,
when a non-empty delta was found, terminates with `changed = true` and no
remote effect. -/
theorem check_mode_no_mutating_calls :
    (∀ (σ : Type) (reg : RetentionRegistry σ) (s : σ) (p : RetentionParams),
      p.check_mode = true →
      (runRetention reg s p).callsOf = [] ∧
      (∀ project, reg.getProject s = some project →
        (∀ rid, project.retention_id = some rid →
          (p.force = true ∨ reg.getPolicy s rid ≠
            createDesiredRetentionPolicy p.rules project.project_id p.schedule_cron) →
          runRetention reg s p =
            .exited (setChanges emptyResult (reg.getPolicy s rid)
              (createDesiredRetentionPolicy p.rules project.project_id p.schedule_cron))
              [] s) ∧
        (project.retention_id = none →
          runRetention reg s p =
            .exited { changed := true, diff := none,
                      retention_policy := some (createDesiredRetentionPolicy p.rules
                        project.project_id p.schedule_cron) } [] s))) ∧
    (∀ (σ : Type) (reg : ScanRegistry σ) (s : σ) (p : ScanAllScheduleParams),
      p.check_mode = true →
      (runScanAllSchedule reg s p).callsOf = [] ∧
      (∀ before, getScheduleCanon (reg.fetchSchedule s) = some before →
        constructDesired p.schedule_cron p.sched_type ≠ before →
        runScanAllSchedule reg s p =
          .exited (setChanges emptyResult before
            (constructDesired p.schedule_cron p.sched_type)) [] s)) ∧
    (∀ (σ : Type) (reg : TagRegistry σ) (s : σ) (p : TagImmutabilityParams),
      p.check_mode = true →
      (runTagImmutability reg s p).callsOf = [] ∧
      (∀ project pairs, reg.getProject s = some project →
        formatGetTagImmutabilityList ((reg.getRules s).map renderRule)
          project.project_id = some pairs →
        pairs.map Prod.snd ≠
          createDesiredTagImmutabilityList p.tag_immutability_list project.project_id →
        runTagImmutability reg s p =
          .exited (setChanges emptyResult (pairs.map Prod.snd)
            (createDesiredTagImmutabilityList p.tag_immutability_list
              project.project_id)) [] s)) := by
  refine ⟨?_, ?_, ?_⟩
  · intro σ reg s p hC
    refine ⟨runRetention_check_callsOf reg s p hC, ?_⟩
    intro project hP
    exact ⟨fun rid hR hNe => runRetention_checkUpdate reg s p hP hR hC hNe,
           fun hR => runRetention_checkCreate reg s p hP hR hC⟩
  · intro σ reg s p hC
    refine ⟨runScan_check_callsOf reg s p hC, ?_⟩
    intro before hcanon hne
    exact runScan_check reg s p hcanon hne hC
  · intro σ reg s p hC
    refine ⟨runTag_check_callsOf reg s p hC, ?_⟩
    intro project pairs hP hFmt hne
    exact runTag_check reg s p hP rfl hFmt hne hC

/-- Witness for C3: concrete check-mode runs of all three reconcilers. -/
theorem check_mode_no_mutating_calls_witness :
    (runRetention retentionEcho ⟨true, 1, some (4, .null), 9⟩
        ⟨[], "c", false, true⟩).callsOf = [] ∧
    runRetention retentionEcho ⟨true, 1, some (4, .null), 9⟩ ⟨[], "c", false, true⟩ =
      .exited (setChanges emptyResult Json.null
        (createDesiredRetentionPolicy [] 1 "c")) [] ⟨true, 1, some (4, .null), 9⟩ ∧
    runRetention retentionEcho ⟨true, 1, none, 9⟩ ⟨[], "c", false, true⟩ =
      .exited { changed := true, diff := none,
                retention_policy := some (createDesiredRetentionPolicy [] 1 "c") }
        [] ⟨true, 1, none, 9⟩ ∧
    (runScanAllSchedule scanEcho ⟨none⟩ ⟨"c", "Custom", true⟩).callsOf = [] ∧
    runScanAllSchedule scanEcho ⟨none⟩ ⟨"c", "Custom", true⟩ =
      .exited (setChanges emptyResult (.obj []) (constructDesired "c" "Custom")) []
        ⟨none⟩ ∧
    (runTagImmutability tagEcho ⟨some 1, [], 0⟩
        ⟨[⟨"repoMatches", "**", "matches", "t"⟩], true⟩).callsOf = [] ∧
    runTagImmutability tagEcho ⟨some 1, [], 0⟩
        ⟨[⟨"repoMatches", "**", "matches", "t"⟩], true⟩ =
      .exited (setChanges emptyResult []
          (createDesiredTagImmutabilityList [⟨"repoMatches", "**", "matches", "t"⟩] 1))
        [] ⟨some 1, [], 0⟩ := by
  refine ⟨?_, ?_, ?_, ?_, ?_, ?_, ?_⟩
  · exact (check_mode_no_mutating_calls.1 RetentionEchoState retentionEcho
      ⟨true, 1, some (4, .null), 9⟩ ⟨[], "c", false, true⟩ rfl).1
  · exact ((check_mode_no_mutating_calls.1 RetentionEchoState retentionEcho
      ⟨true, 1, some (4, .null), 9⟩ ⟨[], "c", false, true⟩ rfl).2
      ⟨1, some 4⟩ (by decide)).1 4 (by decide) (Or.inr (by decide))
  · exact ((check_mode_no_mutating_calls.1 RetentionEchoState retentionEcho
      ⟨true, 1, none, 9⟩ ⟨[], "c", false, true⟩ rfl).2
      ⟨1, none⟩ (by decide)).2 (by decide)
  · exact (check_mode_no_mutating_calls.2.1 ScanEchoState scanEcho ⟨none⟩
      ⟨"c", "Custom", true⟩ rfl).1
  · exact (check_mode_no_mutating_calls.2.1 ScanEchoState scanEcho ⟨none⟩
      ⟨"c", "Custom", true⟩ rfl).2 (.obj []) rfl (by decide)
  · exact (check_mode_no_mutating_calls.2.2 TagEchoState tagEcho ⟨some 1, [], 0⟩
      ⟨[⟨"repoMatches", "**", "matches", "t"⟩], true⟩ rfl).1
  · exact (check_mode_no_mutating_calls.2.2 TagEchoState tagEcho ⟨some 1, [], 0⟩
      ⟨[⟨"repoMatches", "**", "matches", "t"⟩], true⟩ rfl).2
      ⟨1, none⟩ [] (by decide) (by decide) (by decide)

/-- C7: no reconciler issues a mutating call unless the computed delta is
non-empty.  When the canonical comparison succeeds (and, for the retention
resource, force is off), the run exits with `changed = false` and an empty
call list; conversely, any issued POST/PUT/DELETE implies apply mode with
the comparison failed — for the retention resource a missing policy,
`force`, or a structural difference; for the tag resource additionally a
non-empty create-or-delete partition. -/
theorem no_write_without_delta :
    (∀ (σ : Type) (reg : RetentionRegistry σ) (s : σ) (p : RetentionParams)
        (project : HarborProject) (rid : Nat),
      reg.getProject s = some project → project.retention_id = some rid →
      p.force = false →
      reg.getPolicy s rid =
        createDesiredRetentionPolicy p.rules project.project_id p.schedule_cron →
      runRetention reg s p = .exited emptyResult [] s) ∧
    (∀ (σ : Type) (reg : RetentionRegistry σ) (s : σ) (p : RetentionParams),
      (runRetention reg s p).callsOf ≠ [] →
      p.check_mode = false ∧ ∃ project, reg.getProject s = some project ∧
        (project.retention_id = none ∨ p.force = true ∨
          ∃ rid, project.retention_id = some rid ∧
            reg.getPolicy s rid ≠
              createDesiredRetentionPolicy p.rules project.project_id p.schedule_cron)) ∧
    (∀ (σ : Type) (reg : ScanRegistry σ) (s : σ) (p : ScanAllScheduleParams)
        (before : Json),
      getScheduleCanon (reg.fetchSchedule s) = some before →
      constructDesired p.schedule_cron p.sched_type = before →
      runScanAllSchedule reg s p = .exited emptyResult [] s) ∧
    (∀ (σ : Type) (reg : ScanRegistry σ) (s : σ) (p : ScanAllScheduleParams),
      (runScanAllSchedule reg s p).callsOf ≠ [] →
      p.check_mode = false ∧ ∃ before,
        getScheduleCanon (reg.fetchSchedule s) = some before ∧
        constructDesired p.schedule_cron p.sched_type ≠ before) ∧
    (∀ (σ : Type) (reg : TagRegistry σ) (s : σ) (p : TagImmutabilityParams)
        (project : HarborProject) (pairs : List (Json × Json)),
      reg.getProject s = some project →
      formatGetTagImmutabilityList ((reg.getRules s).map renderRule)
        project.project_id = some pairs →
      pairs.map Prod.snd =
        createDesiredTagImmutabilityList p.tag_immutability_list project.project_id →
      runTagImmutability reg s p = .exited emptyResult [] s) ∧
    (∀ (σ : Type) (reg : TagRegistry σ) (s : σ) (p : TagImmutabilityParams),
      (runTagImmutability reg s p).callsOf ≠ [] →
      p.check_mode = false ∧ ∃ project pairs,
        reg.getProject s = some project ∧
        formatGetTagImmutabilityList ((reg.getRules s).map renderRule)
          project.project_id = some pairs ∧
        pairs.map Prod.snd ≠
          createDesiredTagImmutabilityList p.tag_immutability_list project.project_id ∧
        (tagToAdd (createDesiredTagImmutabilityList p.tag_immutability_list
            project.project_id) (pairs.map Prod.snd) ≠ [] ∨
          tagDeleteIds (pairs.map Prod.fst)
            (tagDeleteKeys (pairs.map Prod.snd)
              (createDesiredTagImmutabilityList p.tag_immutability_list
                project.project_id)) ≠ [])) := by
  refine ⟨?_, ?_, ?_, ?_, ?_, ?_⟩
  · intro σ reg s p project rid hP hR hF hEq
    exact runRetention_noChange reg s p hP hR hF hEq
  · intro σ reg s p h
    cases hcm : p.check_mode with
    | true => exact absurd (runRetention_check_callsOf reg s p hcm) h
    | false =>
      refine ⟨rfl, ?_⟩
      cases hP : reg.getProject s with
      | none =>
        rw [runRetention_noProject reg s p hP] at h
        exact absurd rfl h
      | some project =>
        refine ⟨project, rfl, ?_⟩
        cases hR : project.retention_id with
        | none => exact Or.inl rfl
        | some rid =>
          by_cases hcond : p.force = false ∧ reg.getPolicy s rid =
              createDesiredRetentionPolicy p.rules project.project_id p.schedule_cron
          · rw [runRetention_noChange reg s p hP hR hcond.1 hcond.2] at h
            exact absurd rfl h
          · cases hf : p.force with
            | true => exact Or.inr (Or.inl rfl)
            | false =>
              exact Or.inr (Or.inr ⟨rid, rfl, fun he => hcond ⟨hf, he⟩⟩)
  · intro σ reg s p before hcanon hEq
    exact runScan_noChange reg s p hcanon hEq
  · intro σ reg s p h
    cases hcm : p.check_mode with
    | true => exact absurd (runScan_check_callsOf reg s p hcm) h
    | false =>
      refine ⟨rfl, ?_⟩
      cases hcanon : getScheduleCanon (reg.fetchSchedule s) with
      | none =>
        rw [runScan_crash reg s p hcanon] at h
        exact absurd rfl h
      | some before =>
        refine ⟨before, rfl, ?_⟩
        by_cases hd : constructDesired p.schedule_cron p.sched_type = before
        · rw [runScan_noChange reg s p hcanon hd] at h
          exact absurd rfl h
        · exact hd
  · intro σ reg s p project pairs hP hFmt hEq
    exact runTag_noChange reg s p hP rfl hFmt hEq
  · intro σ reg s p h
    cases hcm : p.check_mode with
    | true => exact absurd (runTag_check_callsOf reg s p hcm) h
    | false =>
      refine ⟨rfl, ?_⟩
      cases hP : reg.getProject s with
      | none =>
        rw [runTag_noProject reg s p hP] at h
        exact absurd rfl h
      | some project =>
        cases hFmt : formatGetTagImmutabilityList ((reg.getRules s).map renderRule)
            project.project_id with
        | none =>
          have : (runTagImmutability reg s p).callsOf = [] := by
            simp [runTagImmutability, hP, hFmt, Outcome.callsOf]
          exact absurd this h
        | some pairs =>
          refine ⟨project, pairs, rfl, hFmt, ?_⟩
          by_cases hd : pairs.map Prod.snd =
              createDesiredTagImmutabilityList p.tag_immutability_list project.project_id
          · rw [runTag_noChange reg s p hP rfl hFmt hd] at h
            exact absurd rfl h
          · refine ⟨hd, ?_⟩
            rw [runTag_apply_callsOf reg s p hP hFmt hd hcm] at h
            by_cases hta : tagToAdd (createDesiredTagImmutabilityList
                p.tag_immutability_list project.project_id) (pairs.map Prod.snd) = []
            · by_cases hdi : tagDeleteIds (pairs.map Prod.fst)
                  (tagDeleteKeys (pairs.map Prod.snd)
                    (createDesiredTagImmutabilityList p.tag_immutability_list
                      project.project_id)) = []
              · rw [hta, hdi] at h
                exact absurd rfl h
              · exact Or.inr hdi
            · exact Or.inl hta

/-- Witness for C7: a no-delta run issues no calls, and a concrete run that
did issue calls had a non-empty delta. -/
theorem no_write_without_delta_witness :
    runRetention retentionEcho
      ⟨true, 1, some (4, createDesiredRetentionPolicy [] 1 "c"), 9⟩
      ⟨[], "c", false, false⟩ =
      .exited emptyResult []
        ⟨true, 1, some (4, createDesiredRetentionPolicy [] 1 "c"), 9⟩ ∧
    runScanAllSchedule scanEcho ⟨some (constructDesired "c" "Custom")⟩
      ⟨"c", "Custom", false⟩ = .exited emptyResult [] ⟨some (constructDesired "c" "Custom")⟩ ∧
    runTagImmutability tagEcho
      ⟨some 1, [(0, createDesiredTagImmutability ⟨"repoMatches", "**", "matches", "t"⟩ 1)], 1⟩
      ⟨[⟨"repoMatches", "**", "matches", "t"⟩], false⟩ =
      .exited emptyResult []
        ⟨some 1, [(0, createDesiredTagImmutability ⟨"repoMatches", "**", "matches", "t"⟩ 1)], 1⟩ ∧
    ((runRetention retentionEcho ⟨true, 1, none, 5⟩ ⟨[], "c", false, false⟩).callsOf ≠ [] →
      (⟨[], "c", false, false⟩ : RetentionParams).check_mode = false ∧
      ∃ project, retentionEcho.getProject ⟨true, 1, none, 5⟩ = some project ∧
        (project.retention_id = none ∨ (⟨[], "c", false, false⟩ : RetentionParams).force = true ∨
          ∃ rid, project.retention_id = some rid ∧
            retentionEcho.getPolicy ⟨true, 1, none, 5⟩ rid ≠
              createDesiredRetentionPolicy [] project.project_id "c")) := by
  refine ⟨?_, ?_, ?_, ?_⟩
  · exact no_write_without_delta.1 RetentionEchoState retentionEcho
      ⟨true, 1, some (4, createDesiredRetentionPolicy [] 1 "c"), 9⟩
      ⟨[], "c", false, false⟩ ⟨1, some 4⟩ 4 (by decide) (by decide) rfl (by decide)
  · exact no_write_without_delta.2.2.1 ScanEchoState scanEcho
      ⟨some (constructDesired "c" "Custom")⟩ ⟨"c", "Custom", false⟩
      (constructDesired "c" "Custom") (by decide) rfl
  · exact no_write_without_delta.2.2.2.2.1 TagEchoState tagEcho
      ⟨some 1, [(0, createDesiredTagImmutability ⟨"repoMatches", "**", "matches", "t"⟩ 1)], 1⟩
      ⟨[⟨"repoMatches", "**", "matches", "t"⟩], false⟩ ⟨1, none⟩
      [(Json.num 0, createDesiredTagImmutability ⟨"repoMatches", "**", "matches", "t"⟩ 1)]
      (by decide) (by decide) (by decide)
  · exact fun h => no_write_without_delta.2.1 RetentionEchoState retentionEcho
      ⟨true, 1, none, 5⟩ ⟨[], "c", false, false⟩ h

/-- C4, counterexample: a forced apply-mode run whose stored policy already
equals the desired policy executes the write path (the PUT is issued) but
reports `changed = false`, because the reported flag comes from comparing
the pre-write policy with the re-fetched post-write policy, which the
echoing registry returns unchanged.  The claim that force mode always
reports `changed = true` is therefore false. -/
theorem force_mode_equal_changed_false :
    (⟨[Json.str "r"], "0 0 0 * * 0", true, false⟩ : RetentionParams).force = true ∧
    retentionEcho.getPolicy
      ⟨true, 1, some (7, createDesiredRetentionPolicy [Json.str "r"] 1 "0 0 0 * * 0"), 8⟩ 7 =
      createDesiredRetentionPolicy [Json.str "r"] 1 "0 0 0 * * 0" ∧
    runRetention retentionEcho
      ⟨true, 1, some (7, createDesiredRetentionPolicy [Json.str "r"] 1 "0 0 0 * * 0"), 8⟩
      ⟨[Json.str "r"], "0 0 0 * * 0", true, false⟩ =
      .exited { changed := false, diff := none, retention_policy := none }
        [.put (createDesiredRetentionPolicy [Json.str "r"] 1 "0 0 0 * * 0")]
        ⟨true, 1, some (7, createDesiredRetentionPolicy [Json.str "r"] 1 "0 0 0 * * 0"), 8⟩ := by
  refine ⟨rfl, rfl, ?_⟩
  decide

/-- C4, amended: whenever the caller requests force mode on the retention
resource, equality is treated as false and the write path always executes — 
a check-mode run records the before/desired preview with `changed = true`,
and an apply-mode run always issues the PUT; but the apply-mode `changed`
flag is still decided by comparing the pre-write policy with the re-fetched
post-write policy, so it is `false` when those are equal. -/
theorem force_mode_write_path {σ : Type} (reg : RetentionRegistry σ) (s : σ)
    (p : RetentionParams) (project : HarborProject) (rid : Nat)
    (hF : p.force = true) (hP : reg.getProject s = some project)
    (hR : project.retention_id = some rid) :
    (p.check_mode = true →
      runRetention reg s p =
        .exited (setChanges emptyResult (reg.getPolicy s rid)
          (createDesiredRetentionPolicy p.rules project.project_id p.schedule_cron))
          [] s) ∧
    (p.check_mode = false →
      ∃ r, runRetention reg s p =
          .exited r
            [.put (createDesiredRetentionPolicy p.rules project.project_id
              p.schedule_cron)]
            (reg.putPolicy s rid
              (createDesiredRetentionPolicy p.rules project.project_id p.schedule_cron)) ∧
        (r.changed = true ↔ reg.getPolicy s rid ≠
          reg.getPolicy (reg.putPolicy s rid
            (createDesiredRetentionPolicy p.rules project.project_id p.schedule_cron))
            rid)) := by
  constructor
  · intro hC
    exact runRetention_checkUpdate reg s p hP hR hC (Or.inl hF)
  · intro hC
    have heq := runRetention_applyUpdate reg s p hP hR hC (Or.inl hF)
    simp only [] at heq
    refine ⟨_, heq, ?_⟩
    by_cases hne : reg.getPolicy s rid = reg.getPolicy (reg.putPolicy s rid
        (createDesiredRetentionPolicy p.rules project.project_id p.schedule_cron)) rid
    · have hred : (if reg.getPolicy s rid ≠ reg.getPolicy (reg.putPolicy s rid
          (createDesiredRetentionPolicy p.rules project.project_id p.schedule_cron)) rid
          then setChanges emptyResult (reg.getPolicy s rid)
            (reg.getPolicy (reg.putPolicy s rid
              (createDesiredRetentionPolicy p.rules project.project_id p.schedule_cron))
              rid)
          else emptyResult) = emptyResult := if_neg (not_not_intro hne)
      rw [hred]
      simp [emptyResult, hne]
    · have hred : (if reg.getPolicy s rid ≠ reg.getPolicy (reg.putPolicy s rid
          (createDesiredRetentionPolicy p.rules project.project_id p.schedule_cron)) rid
          then setChanges emptyResult (reg.getPolicy s rid)
            (reg.getPolicy (reg.putPolicy s rid
              (createDesiredRetentionPolicy p.rules project.project_id p.schedule_cron))
              rid)
          else emptyResult) =
          setChanges emptyResult (reg.getPolicy s rid)
            (reg.getPolicy (reg.putPolicy s rid
              (createDesiredRetentionPolicy p.rules project.project_id p.schedule_cron))
              rid) := if_pos hne
      rw [hred]
      simp [setChanges, hne]

theorem ite_changed_iff {α : Type} [DecidableEq α] (A B : α) :
    ((if A ≠ B then setChanges emptyResult A B else emptyResult) : RunResult α).changed =
      true ↔ A ≠ B := by
  by_cases h : A = B
  · have hred : (if A ≠ B then setChanges emptyResult A B else emptyResult) =
        emptyResult := if_neg (not_not_intro h)
    rw [hred]
    simp [emptyResult, h]
  · have hred : (if A ≠ B then setChanges emptyResult A B else emptyResult) =
        setChanges emptyResult A B := if_pos h
    rw [hred]
    simp [setChanges, h]

/-- C10 (implicit): in apply mode with a non-empty delta, the retention and
tag-immutability reconcilers issue their writes and then decide the
reported `changed` flag empirically, by comparing the pre-write canonical
state with the re-fetched post-write canonical state: the flag is true iff
the two differ, regardless of the calls actually issued. -/
theorem changed_flag_empirical :
    (∀ (σ : Type) (reg : RetentionRegistry σ) (s : σ) (p : RetentionParams)
        (project : HarborProject) (rid : Nat),
      p.check_mode = false → reg.getProject s = some project →
      project.retention_id = some rid →
      (p.force = true ∨ reg.getPolicy s rid ≠
        createDesiredRetentionPolicy p.rules project.project_id p.schedule_cron) →
      ∃ r, runRetention reg s p =
          .exited r
            [.put (createDesiredRetentionPolicy p.rules project.project_id
              p.schedule_cron)]
            (reg.putPolicy s rid
              (createDesiredRetentionPolicy p.rules project.project_id p.schedule_cron)) ∧
        (r.changed = true ↔ reg.getPolicy s rid ≠
          reg.getPolicy (reg.putPolicy s rid
            (createDesiredRetentionPolicy p.rules project.project_id p.schedule_cron))
            rid)) ∧
    (∀ (σ : Type) (reg : TagRegistry σ) (s : σ) (p : TagImmutabilityParams)
        (project : HarborProject) (pairs pairs2 : List (Json × Json)),
      p.check_mode = false → reg.getProject s = some project →
      formatGetTagImmutabilityList ((reg.getRules s).map renderRule)
        project.project_id = some pairs →
      pairs.map Prod.snd ≠
        createDesiredTagImmutabilityList p.tag_immutability_list project.project_id →
      formatGetTagImmutabilityList
        ((reg.getRules ((tagDeleteIds (pairs.map Prod.fst)
            (tagDeleteKeys (pairs.map Prod.snd)
              (createDesiredTagImmutabilityList p.tag_immutability_list
                project.project_id))).foldl
          reg.deleteRule
          ((tagToAdd (createDesiredTagImmutabilityList p.tag_immutability_list
              project.project_id)
            (pairs.map Prod.snd)).foldl reg.postRule s))).map renderRule)
        project.project_id = some pairs2 →
      ∃ r, runTagImmutability reg s p =
          .exited r
            ((tagToAdd (createDesiredTagImmutabilityList p.tag_immutability_list
                project.project_id) (pairs.map Prod.snd)).map MutCall.post ++
              (tagDeleteIds (pairs.map Prod.fst)
                (tagDeleteKeys (pairs.map Prod.snd)
                  (createDesiredTagImmutabilityList p.tag_immutability_list
                    project.project_id))).map MutCall.delete)
            ((tagDeleteIds (pairs.map Prod.fst)
                (tagDeleteKeys (pairs.map Prod.snd)
                  (createDesiredTagImmutabilityList p.tag_immutability_list
                    project.project_id))).foldl
              reg.deleteRule
              ((tagToAdd (createDesiredTagImmutabilityList p.tag_immutability_list
                  project.project_id)
                (pairs.map Prod.snd)).foldl reg.postRule s)) ∧
        (r.changed = true ↔ pairs.map Prod.snd ≠ pairs2.map Prod.snd) ∧
        ((tagToAdd (createDesiredTagImmutabilityList p.tag_immutability_list
            project.project_id) (pairs.map Prod.snd) ≠ [] ∨
          tagDeleteIds (pairs.map Prod.fst)
            (tagDeleteKeys (pairs.map Prod.snd)
              (createDesiredTagImmutabilityList p.tag_immutability_list
                project.project_id)) ≠ []) →
          (tagToAdd (createDesiredTagImmutabilityList p.tag_immutability_list
              project.project_id) (pairs.map Prod.snd)).map MutCall.post ++
            (tagDeleteIds (pairs.map Prod.fst)
              (tagDeleteKeys (pairs.map Prod.snd)
                (createDesiredTagImmutabilityList p.tag_immutability_list
                  project.project_id))).map MutCall.delete ≠ [])) := by
  constructor
  · intro σ reg s p project rid hC hP hR hNe
    have heq := runRetention_applyUpdate reg s p hP hR hC hNe
    simp only [] at heq
    refine ⟨_, heq, ?_⟩
    exact ite_changed_iff _ _
  · intro σ reg s p project pairs pairs2 hC hP hFmt hNe hFmt2
    have heq := runTag_apply reg s p hP rfl hFmt hNe hC hFmt2
    simp only [] at heq
    refine ⟨_, heq, ite_changed_iff _ _, ?_⟩
    intro hdelta hnil
    rw [List.append_eq_nil] at hnil
    rcases hdelta with h | h
    · exact h (List.map_eq_nil_iff.mp hnil.1)
    · exact h (List.map_eq_nil_iff.mp hnil.2)

/-- Witness for C10: a forced echo-registry retention run (PUT issued,
`changed` decided by the unchanged re-fetch) and a tag run against a
registry that drops writes (POST and DELETE issued, yet the re-fetched
state equals the pre-write state). -/
theorem changed_flag_empirical_witness :
    (∃ r, runRetention retentionEcho
        ⟨true, 1, some (7, createDesiredRetentionPolicy [] 1 "c"), 8⟩
        ⟨[], "c", true, false⟩ =
        .exited r [.put (createDesiredRetentionPolicy [] 1 "c")]
          (retentionEcho.putPolicy
            ⟨true, 1, some (7, createDesiredRetentionPolicy [] 1 "c"), 8⟩ 7
            (createDesiredRetentionPolicy [] 1 "c")) ∧
      (r.changed = true ↔ retentionEcho.getPolicy
          ⟨true, 1, some (7, createDesiredRetentionPolicy [] 1 "c"), 8⟩ 7 ≠
        retentionEcho.getPolicy (retentionEcho.putPolicy
          ⟨true, 1, some (7, createDesiredRetentionPolicy [] 1 "c"), 8⟩ 7
          (createDesiredRetentionPolicy [] 1 "c")) 7)) ∧
    (∃ r, runTagImmutability tagFrozen ⟨some 1, [(3, Json.obj [("x", Json.str "v")])], 4⟩
        ⟨[⟨"repoMatches", "**", "matches", "t"⟩], false⟩ =
        .exited r
          ((tagToAdd (createDesiredTagImmutabilityList
              [⟨"repoMatches", "**", "matches", "t"⟩] 1)
            ([(Json.num 3, forceCompareFields (Json.obj [("x", Json.str "v")]) 1)].map
              Prod.snd)).map MutCall.post ++
            (tagDeleteIds
              ([(Json.num 3, forceCompareFields (Json.obj [("x", Json.str "v")]) 1)].map
                Prod.fst)
              (tagDeleteKeys
                ([(Json.num 3, forceCompareFields (Json.obj [("x", Json.str "v")]) 1)].map
                  Prod.snd)
                (createDesiredTagImmutabilityList
                  [⟨"repoMatches", "**", "matches", "t"⟩] 1))).map MutCall.delete)
          ((tagDeleteIds
              ([(Json.num 3, forceCompareFields (Json.obj [("x", Json.str "v")]) 1)].map
                Prod.fst)
              (tagDeleteKeys
                ([(Json.num 3, forceCompareFields (Json.obj [("x", Json.str "v")]) 1)].map
                  Prod.snd)
                (createDesiredTagImmutabilityList
                  [⟨"repoMatches", "**", "matches", "t"⟩] 1))).foldl
            tagFrozen.deleteRule
            ((tagToAdd (createDesiredTagImmutabilityList
                [⟨"repoMatches", "**", "matches", "t"⟩] 1)
              ([(Json.num 3, forceCompareFields (Json.obj [("x", Json.str "v")]) 1)].map
                Prod.snd)).foldl tagFrozen.postRule
              ⟨some 1, [(3, Json.obj [("x", Json.str "v")])], 4⟩)) ∧
      (r.changed = true ↔
        [(Json.num 3, forceCompareFields (Json.obj [("x", Json.str "v")]) 1)].map
          Prod.snd ≠
        [(Json.num 3, forceCompareFields (Json.obj [("x", Json.str "v")]) 1)].map
          Prod.snd) ∧
      ((tagToAdd (createDesiredTagImmutabilityList
            [⟨"repoMatches", "**", "matches", "t"⟩] 1)
          ([(Json.num 3, forceCompareFields (Json.obj [("x", Json.str "v")]) 1)].map
            Prod.snd) ≠ [] ∨
        tagDeleteIds
          ([(Json.num 3, forceCompareFields (Json.obj [("x", Json.str "v")]) 1)].map
            Prod.fst)
          (tagDeleteKeys
            ([(Json.num 3, forceCompareFields (Json.obj [("x", Json.str "v")]) 1)].map
              Prod.snd)
            (createDesiredTagImmutabilityList
              [⟨"repoMatches", "**", "matches", "t"⟩] 1)) ≠ []) →
        (tagToAdd (createDesiredTagImmutabilityList
            [⟨"repoMatches", "**", "matches", "t"⟩] 1)
          ([(Json.num 3, forceCompareFields (Json.obj [("x", Json.str "v")]) 1)].map
            Prod.snd)).map MutCall.post ++
          (tagDeleteIds
            ([(Json.num 3, forceCompareFields (Json.obj [("x", Json.str "v")]) 1)].map
              Prod.fst)
            (tagDeleteKeys
              ([(Json.num 3, forceCompareFields (Json.obj [("x", Json.str "v")]) 1)].map
                Prod.snd)
              (createDesiredTagImmutabilityList
                [⟨"repoMatches", "**", "matches", "t"⟩] 1))).map MutCall.delete ≠ [])) := by
  constructor
  · exact changed_flag_empirical.1 RetentionEchoState retentionEcho
      ⟨true, 1, some (7, createDesiredRetentionPolicy [] 1 "c"), 8⟩
      ⟨[], "c", true, false⟩ ⟨1, some 7⟩ 7 rfl (by decide) (by decide) (Or.inl rfl)
  · exact changed_flag_empirical.2 TagEchoState tagFrozen
      ⟨some 1, [(3, Json.obj [("x", Json.str "v")])], 4⟩
      ⟨[⟨"repoMatches", "**", "matches", "t"⟩], false⟩ ⟨1, none⟩
      [(Json.num 3, forceCompareFields (Json.obj [("x", Json.str "v")]) 1)]
      [(Json.num 3, forceCompareFields (Json.obj [("x", Json.str "v")]) 1)]
      rfl (by decide) (by decide) (by decide) (by decide)

/-- Witness for the amended C4 at a concrete forced run in both modes. -/
theorem force_mode_write_path_witness :
    runRetention retentionEcho ⟨true, 1, some (7, .null), 8⟩ ⟨[], "c", true, true⟩ =
      .exited (setChanges emptyResult Json.null (createDesiredRetentionPolicy [] 1 "c"))
        [] ⟨true, 1, some (7, .null), 8⟩ ∧
    (∃ r, runRetention retentionEcho ⟨true, 1, some (7, .null), 8⟩ ⟨[], "c", true, false⟩ =
        .exited r [.put (createDesiredRetentionPolicy [] 1 "c")]
          (retentionEcho.putPolicy ⟨true, 1, some (7, .null), 8⟩ 7
            (createDesiredRetentionPolicy [] 1 "c")) ∧
      (r.changed = true ↔ retentionEcho.getPolicy ⟨true, 1, some (7, .null), 8⟩ 7 ≠
        retentionEcho.getPolicy (retentionEcho.putPolicy ⟨true, 1, some (7, .null), 8⟩ 7
          (createDesiredRetentionPolicy [] 1 "c")) 7)) := by
  constructor
  · exact (force_mode_write_path retentionEcho ⟨true, 1, some (7, .null), 8⟩
      ⟨[], "c", true, true⟩ ⟨1, some 7⟩ 7 rfl (by decide) (by decide)).1 rfl
  · exact (force_mode_write_path retentionEcho ⟨true, 1, some (7, .null), 8⟩
      ⟨[], "c", true, false⟩ ⟨1, some 7⟩ 7 rfl (by decide) (by decide)).2 rfl

/-- C8, counterexample: the retention module performs no canonicalization
of the fetched policy body — when the response carries an `id` field, the
canonical current form used for the comparison and recorded as the diff
`before` snapshot still contains it, refuting the claim that canonical
forms never contain a server-assigned identifier. -/
theorem retention_canonical_keeps_id :
    ((createDesiredRetentionPolicy [Json.str "r"] 1 "c").setField "id"
      (.num 4)).hasKey "id" = true ∧
    runRetention retentionEcho
      ⟨true, 1,
       some (4, (createDesiredRetentionPolicy [Json.str "r"] 1 "c").setField "id" (.num 4)),
       9⟩
      ⟨[Json.str "r"], "c", false, true⟩ =
      .exited { changed := true,
                diff := some
                  ((createDesiredRetentionPolicy [Json.str "r"] 1 "c").setField "id"
                    (.num 4),
                   createDesiredRetentionPolicy [Json.str "r"] 1 "c"),
                retention_policy := none } []
        ⟨true, 1,
         some (4, (createDesiredRetentionPolicy [Json.str "r"] 1 "c").setField "id" (.num 4)),
         9⟩ := by
  refine ⟨by decide, by decide⟩

/-- C8, amended: the tag-immutability canonicalization strips exactly the
server-assigned `id` field (and overwrites `project_id`, `priority` and
`disabled` with the fixed comparison values), and the scan-all
canonicalization keeps only the `schedule` key, so neither canonical form
carries a top-level `id`; but the retention reconciler compares and records
the fetched policy body verbatim — nothing is stripped. -/
theorem canonicalization_strips_amended :
    (∀ (b : Json) (pid : Int) (idv canon : Json),
      (Json.objKeys b).Nodup → formatOneTagRule b pid = some (idv, canon) →
      canon.hasKey "id" = false) ∧
    (∀ (resp : HttpResponse) (out : Json),
      getSchedule resp = some out → out.hasKey "id" = false) ∧
    (∀ (σ : Type) (reg : RetentionRegistry σ) (s : σ) (p : RetentionParams)
        (project : HarborProject) (rid : Nat),
      reg.getProject s = some project → project.retention_id = some rid →
      p.check_mode = true →
      (p.force = true ∨ reg.getPolicy s rid ≠
        createDesiredRetentionPolicy p.rules project.project_id p.schedule_cron) →
      runRetention reg s p =
        .exited (setChanges emptyResult (reg.getPolicy s rid)
          (createDesiredRetentionPolicy p.rules project.project_id p.schedule_cron))
          [] s) := by
  refine ⟨?_, ?_, ?_⟩
  · intro b pid idv canon hnd hfmt
    cases b with
    | obj fields =>
      cases hpop : popFields fields "id" with
      | none => simp [formatOneTagRule, Json.popField, hpop] at hfmt
      | some r =>
        obtain ⟨v, rest⟩ := r
        simp only [formatOneTagRule, Json.popField, hpop, Option.map_some',
          Option.some.injEq, Prod.mk.injEq] at hfmt
        have hrest : lookupFields rest "id" = none :=
          popFields_lookup_none (by simpa [Json.objKeys] using hnd) hpop
        rw [← hfmt.2]
        refine hasKey_forceCompareFields pid ?_
        simp [Json.hasKey, Json.lookup, hrest]
    | null => simp [formatOneTagRule, Json.popField] at hfmt
    | jbool b => simp [formatOneTagRule, Json.popField] at hfmt
    | num n => simp [formatOneTagRule, Json.popField] at hfmt
    | str s => simp [formatOneTagRule, Json.popField] at hfmt
    | arr xs => simp [formatOneTagRule, Json.popField] at hfmt
  · intro resp out h
    unfold getSchedule at h
    by_cases hc : resp.status = 200 ∧ resp.content_length = 0
    · rw [if_pos hc] at h
      injection h with h2
      rw [← h2]
      rfl
    · rw [if_neg hc] at h
      cases hl : resp.body.lookup "schedule" with
      | none =>
        rw [hl] at h
        simp at h
      | some sch =>
        rw [hl] at h
        simp only [Option.map_some', Option.some.injEq] at h
        rw [← h]
        rfl
  · intro σ reg s p project rid hP hR hC hNe
    exact runRetention_checkUpdate reg s p hP hR hC hNe

/-- Witness for the amended C8 at concrete fetched bodies. -/
theorem canonicalization_strips_amended_witness :
    (forceCompareFields (.obj [("k", .str "v")]) 1).hasKey "id" = false ∧
    (Json.obj []).hasKey "id" = false ∧
    runRetention retentionEcho ⟨true, 1, some (4, .null), 9⟩ ⟨[], "c", false, true⟩ =
      .exited (setChanges emptyResult Json.null (createDesiredRetentionPolicy [] 1 "c"))
        [] ⟨true, 1, some (4, .null), 9⟩ := by
  refine ⟨?_, ?_, ?_⟩
  · exact canonicalization_strips_amended.1 (.obj [("id", .num 7), ("k", .str "v")]) 1
      (.num 7) (forceCompareFields (.obj [("k", .str "v")]) 1) (by decide) (by decide)
  · exact canonicalization_strips_amended.2.1 ⟨200, 0, .null⟩ (.obj []) (by decide)
  · exact canonicalization_strips_amended.2.2 RetentionEchoState retentionEcho
      ⟨true, 1, some (4, .null), 9⟩ ⟨[], "c", false, true⟩ ⟨1, some 4⟩ 4
      (by decide) (by decide) rfl (Or.inr (by decide))
